import Mathlib

/-!
# RenogyRover: register decoding of the Renogy Rover charge controller

A shallow embedding of `src/RenogyRover.cpp` / `src/RenogyRover.h`.

Conventions of the embedding

* `uint8_t`, `uint16_t`, `uint32_t` values are natural numbers kept below `2 ^ 8`,
  `2 ^ 16`, `2 ^ 32` by an explicit `%` wherever the C++ code converts to the type.
* Signed values are integers; a conversion to a signed type of `w` bits is `wrapSigned w`.
* The width of the C++ type `int` is fixed by the toolchain, not by the library.  It is the
  parameter `intBits` of the operations whose arithmetic depends on it (16 on AVR boards,
  32 on ESP8266 / ESP32 / ARM boards).
* `float` fields are rationals: scaling by `0.1f`, `0.01f` and division by `10000.0f`
  are exact.
* The `ModbusMaster` client belongs to an external library.  Its behaviour on the bus is the
  parameter `device`; every request is appended to `log`.
* A member function with an output parameter takes the prior content of that parameter
  and returns an `Outcome`: the C++ return value, the object afterwards, and the content
  of the output parameter afterwards.
* A run of consecutive assignments to fields of one record is written as one record
  update that lists the fields in the order of the source.
* An array obtained from `new` is a list of zeros of the requested length; the code reads
  no element of it before writing it.
* The `char` array of `getProductModel` is handed to the caller, so its cells are optional
  bytes: `none` is a cell that was never written.  A `char` is taken by its byte value.
-/

namespace Renogy

/-! ## Machine integers -/

/-- Conversion of an integer to a signed two's-complement type of `bits` bits. -/
def wrapSigned (bits : Nat) (x : Int) : Int :=
  let m : Int := 2 ^ bits
  let r := x % m
  if 2 * r < m then r else r - m

/-- The cast `(int16_t) v`. -/
def toInt16 (v : Nat) : Int := wrapSigned 16 (v : Int)

/-- The cast `(uint8_t) v`, also the implicit conversion of an argument to a
`uint8_t` parameter. -/
def toUInt8 (v : Nat) : Nat := v % 2 ^ 8

/-- The cast `(uint16_t) v` of a non-negative value. -/
def toUInt16 (v : Nat) : Nat := v % 2 ^ 16

/-- Conversion of an integer to `int8_t`. -/
def toInt8 (x : Int) : Int := wrapSigned 8 x

/-- Conversion of an integer to the type `int` of a toolchain whose `int` has
`intBits` bits. -/
def toInt (intBits : Nat) (x : Int) : Int := wrapSigned intBits x

/-- The value of `v << s` for a `uint16_t` operand `v`.  Where `int` is wider than 16 bits
the operand is promoted to `int` and the shift is done in `int`; where `int` has 16 bits
the operand is an `unsigned int` and the result is reduced modulo `2 ^ 16`. -/
def shiftLeftU16 (intBits v s : Nat) : Int :=
  if 16 < intBits then wrapSigned intBits ((v <<< s : Nat) : Int)
  else (((v <<< s) % 2 ^ intBits : Nat) : Int)

/-- The value of `1U << s`, an `unsigned int`. -/
def oneShiftLeftUnsigned (intBits s : Nat) : Nat := (1 <<< s) % 2 ^ intBits

/-- The value of `~x` for an `unsigned int` operand `x`. -/
def complementUnsigned (intBits x : Nat) : Nat := 2 ^ intBits - 1 - x % 2 ^ intBits

/-! ## Enumerations of `RenogyRover.h` -/

/-- The enumeration `ChargingMode`, by numeric value: a cast from `uint8_t` keeps the
number, also when no enumerator has it. -/
abbrev ChargingMode := Int

def ChargingMode.UNDEFINED : ChargingMode := -1
def ChargingMode.DEACTIVATED : ChargingMode := 0
def ChargingMode.ACTIVATED : ChargingMode := 1
def ChargingMode.MPPT : ChargingMode := 2
def ChargingMode.EQUALIZING : ChargingMode := 3
def ChargingMode.BOOST : ChargingMode := 4
def ChargingMode.FLOATING : ChargingMode := 5
def ChargingMode.OVERPOWER : ChargingMode := 6

/-- The enumeration `FaultCode`, by numeric value. -/
abbrev FaultCode := Nat

def FaultCode.BAT_OVER_DISCHARGE : FaultCode := 1
def FaultCode.BAT_OVER_VOLTAGE : FaultCode := 2
def FaultCode.BAT_UNDER_VOLTAGE_WARNING : FaultCode := 4
def FaultCode.LOAD_SHORT : FaultCode := 8
def FaultCode.LOAD_OVERPOWER : FaultCode := 16
def FaultCode.CONTROLLER_TEMP_HIGH : FaultCode := 32
def FaultCode.AMBIENT_TEMP_HIGH : FaultCode := 64
def FaultCode.PV_OVERPOWER : FaultCode := 128
def FaultCode.PV_SHORT : FaultCode := 256
def FaultCode.PV_OVER_VOLTAGE : FaultCode := 512
def FaultCode.PV_COUNTER_CURRENT : FaultCode := 1024
def FaultCode.PV_WP_OVER_VOLTAGE : FaultCode := 2048
def FaultCode.PV_REVERSE_CONNECTED : FaultCode := 4096
def FaultCode.ANTI_REVERSE_MOS_SHORT : FaultCode := 8192
def FaultCode.CHARGE_MOS_SHORT : FaultCode := 16384

/-! ## Records of `RenogyRover.h` -/

structure PanelState where
  voltage : ℚ
  current : ℚ
  chargingPower : ℚ

structure BatteryState where
  stateOfCharge : Int
  batteryVoltage : ℚ
  chargingCurrent : ℚ
  controllerTemperature : ℚ
  batteryTemperature : ℚ

structure DayStatistics where
  batteryVoltageMinForDay : ℚ
  batteryVoltageMaxForDay : ℚ
  maxChargeCurrentForDay : ℚ
  maxDischargeCurrentForDay : ℚ
  maxChargePowerForDay : ℚ
  maxDischargePowerForDay : ℚ
  chargingAmpHoursForDay : ℚ
  dischargingAmpHoursForDay : ℚ
  powerGenerationForDay : ℚ
  powerConsumptionForDay : ℚ

structure HistStatistics where
  operatingDays : Int
  batOverDischarges : Int
  batFullCharges : Int
  batChargingAmpHours : Int
  batDischargingAmpHours : Int
  powerGenerated : ℚ
  powerConsumed : ℚ

structure ChargingState where
  streetLightState : Int
  streetLightBrightness : Int
  chargingMode : ChargingMode

/-! ## The Modbus client (external library `ModbusMaster`) -/

/-- One request issued through the client. -/
inductive Call where
  | readHoldingRegisters (address quantity : Nat)
  | writeSingleRegister (address value : Nat)
deriving DecidableEq, Repr

/-- The answer of the bus to one request: the result code and, for a read, the words
received. -/
structure Reply where
  status : Nat
  words : List Nat

/-- The client: `device n c` is the answer to request `c` when `n` requests were issued
before it; `log` lists the requests issued so far; `responseBuffer` holds the words of
the last successful read. -/
structure ModbusMaster where
  device : Nat → Call → Reply
  log : List Call
  responseBuffer : List Nat

/-- Result code `ku8MBSuccess` of the `ModbusMaster` library. -/
def ModbusMaster.ku8MBSuccess : Nat := 0x00

/-- Result code `ku8MBIllegalFunction` of the `ModbusMaster` library. -/
def ModbusMaster.ku8MBIllegalFunction : Nat := 0x01

/-- Result code `ku8MBIllegalDataAddress` of the `ModbusMaster` library. -/
def ModbusMaster.ku8MBIllegalDataAddress : Nat := 0x02

/-- Result code `ku8MBIllegalDataValue` of the `ModbusMaster` library. -/
def ModbusMaster.ku8MBIllegalDataValue : Nat := 0x03

/-- Result code `ku8MBSlaveDeviceFailure` of the `ModbusMaster` library. -/
def ModbusMaster.ku8MBSlaveDeviceFailure : Nat := 0x04

/-- Result code `ku8MBInvalidSlaveID` of the `ModbusMaster` library. -/
def ModbusMaster.ku8MBInvalidSlaveID : Nat := 0xE0

/-- Result code `ku8MBInvalidFunction` of the `ModbusMaster` library. -/
def ModbusMaster.ku8MBInvalidFunction : Nat := 0xE1

/-- Result code `ku8MBResponseTimedOut` of the `ModbusMaster` library. -/
def ModbusMaster.ku8MBResponseTimedOut : Nat := 0xE2

/-- Result code `ku8MBInvalidCRC` of the `ModbusMaster` library. -/
def ModbusMaster.ku8MBInvalidCRC : Nat := 0xE3

/-- Size `ku8MaxBufferSize` of the response buffer of the `ModbusMaster` library. -/
def ModbusMaster.ku8MaxBufferSize : Nat := 64

/-- The call `readHoldingRegisters(u16ReadAddress, u16ReadQty)`: the request goes on the
log, the result code (a `uint8_t`) is returned, and a successful answer replaces the
response buffer. -/
def ModbusMaster.readHoldingRegisters (c : ModbusMaster) (address quantity : Nat) :
    Nat × ModbusMaster :=
  let call := Call.readHoldingRegisters (toUInt16 address) (toUInt16 quantity)
  let reply := c.device c.log.length call
  let status := toUInt8 reply.status
  (status,
   { c with
     log := c.log ++ [call]
     responseBuffer :=
       if status = ModbusMaster.ku8MBSuccess then reply.words else c.responseBuffer })

/-- The call `writeSingleRegister(u16WriteAddress, u16WriteValue)`: the request goes on
the log and the result code is returned. -/
def ModbusMaster.writeSingleRegister (c : ModbusMaster) (address value : Nat) :
    Nat × ModbusMaster :=
  let call := Call.writeSingleRegister (toUInt16 address) (toUInt16 value)
  let reply := c.device c.log.length call
  (toUInt8 reply.status, { c with log := c.log ++ [call] })

/-- The call `getResponseBuffer(u8Index)`: the word at the index, `0xFFFF` beyond the
buffer size. -/
def ModbusMaster.getResponseBuffer (c : ModbusMaster) (index : Nat) : Nat :=
  if toUInt8 index < ModbusMaster.ku8MaxBufferSize then
    toUInt16 (c.responseBuffer.getD (toUInt8 index) 0)
  else 0xFFFF

/-! ## The class `RenogyRover` -/

/-- The data members of the class `RenogyRover`. -/
structure RenogyRover where
  _client : ModbusMaster
  _modbusId : Int
  _lastError : Nat

/-- What a member function leaves behind: its return value `ret`, the object `self`
after the call, and the content `out` of its output parameter after the call. -/
structure Outcome (α : Type) where
  ret : Int
  self : RenogyRover
  out : α

/-- A `char*`: the array it points into and the index of the cell it points at. -/
structure CharPtr where
  cells : List (Option Nat)
  index : Nat

/-- The function `RenogyRover::_convertSignedMagnitude(uint8_t val)`, returning
`int8_t`. -/
def RenogyRover._convertSignedMagnitude (v : Nat) : Int :=
  let val := toUInt8 v
  if val &&& 0x80 ≠ 0 then
    toInt8 (-((val &&& 0x7F : Nat) : Int))
  else
    toInt8 (val : Int)

/-- The function `RenogyRover::_readHoldingRegisters(base, length, values)`: one read
request; its result code becomes `_lastError`; on success the first `length` words of the
response buffer are copied into `values` and 1 is returned, otherwise `values` is left
alone and 0 is returned.  (Every caller passes a `length` of at most 10, so the `uint8_t`
loop counter does not wrap.) -/
def RenogyRover._readHoldingRegisters (self : RenogyRover) (base length : Nat)
    (values : List Nat) : Outcome (List Nat) :=
  let answer := self._client.readHoldingRegisters base length
  let self := { self with _client := answer.2, _lastError := answer.1 }
  if self._lastError ≠ ModbusMaster.ku8MBSuccess then
    ⟨0, self, values⟩
  else
    let values := (List.range length).foldl
      (fun vs i => vs.set i (self._client.getResponseBuffer i)) values
    ⟨1, self, values⟩

/-- The function `RenogyRover::getLastModbusError()`: the `switch` over `_lastError`,
its cases in the order of the source. -/
def RenogyRover.getLastModbusError (self : RenogyRover) : String :=
  if self._lastError = ModbusMaster.ku8MBIllegalDataAddress then
    "Illegal data address"
  else if self._lastError = ModbusMaster.ku8MBIllegalDataValue then
    "Illegal data value"
  else if self._lastError = ModbusMaster.ku8MBIllegalFunction then
    "Illegal function"
  else if self._lastError = ModbusMaster.ku8MBSlaveDeviceFailure then
    "Slave device failure"
  else if self._lastError = ModbusMaster.ku8MBSuccess then
    "Success"
  else if self._lastError = ModbusMaster.ku8MBInvalidSlaveID then
    "Invalid slave ID: The slave ID in the response does not match that of the request."
  else if self._lastError = ModbusMaster.ku8MBInvalidFunction then
    "Invalid function: The function code in the response does not match that of the request."
  else if self._lastError = ModbusMaster.ku8MBResponseTimedOut then
    "Response timed out"
  else if self._lastError = ModbusMaster.ku8MBInvalidCRC then
    "InvalidCRC"
  else
    "Unknown error"

/-- The loop of `getProductModel` that copies `values` into `productModel`: for each `i`,
`productModel[j++] = values[i] >> 8` and then `productModel[j++] = values[i]`, each
converted to `char`.  The state of the loop is the pair of `j` and the array. -/
def fillProductModel (registerLength : Nat) (values : List Nat)
    (productModel : List (Option Nat)) : List (Option Nat) :=
  ((List.range registerLength).foldl
    (fun (st : Nat × List (Option Nat)) i =>
      let j := st.1
      let productModel := st.2
      let productModel := productModel.set j (some (toUInt8 (values.getD i 0 >>> 8)))
      let j := j + 1
      let productModel := productModel.set j (some (toUInt8 (values.getD i 0)))
      let j := j + 1
      (j, productModel))
    (0, productModel)).2

/-- The function `RenogyRover::getProductModel(char*& productModel)`.  The pointer passed
in is replaced by a fresh array of `registerLength * 2 + 1` cells before the read, so a
failed read leaves the caller with an array of unwritten cells. -/
def RenogyRover.getProductModel (self : RenogyRover) (_productModel : CharPtr) :
    Outcome CharPtr :=
  let registerBase := 0x000C
  let registerLength := 8
  let values := List.replicate registerLength 0
  let productModel : CharPtr := ⟨List.replicate (registerLength * 2 + 1) none, 0⟩
  let r := self._readHoldingRegisters registerBase registerLength values
  if r.ret = 0 then
    ⟨0, r.self, productModel⟩
  else
    let values := r.out
    let cells := fillProductModel registerLength values productModel.cells
    let cells := cells.set 16 (some 0)
    let productModel : CharPtr := ⟨cells, productModel.index + 2⟩
    ⟨1, r.self, productModel⟩

/-- The function `RenogyRover::getPanelState(PanelState* state)`. -/
def RenogyRover.getPanelState (self : RenogyRover) (state : PanelState) :
    Outcome PanelState :=
  let state := { state with
    chargingPower := 0,
    current := 0,
    voltage := 0 }
  let registerBase := 0x0107
  let registerLength := 3
  let values := List.replicate registerLength 0
  let r := self._readHoldingRegisters registerBase registerLength values
  if r.ret = 0 then
    ⟨0, r.self, state⟩
  else
    let values := r.out
    let state := { state with
      voltage := (toInt16 (values.getD 0 0) : ℚ) * (1 / 10),
      current := (toInt16 (values.getD 1 0) : ℚ) * (1 / 100),
      chargingPower := (toInt16 (values.getD 2 0) : ℚ) }
    ⟨1, r.self, state⟩

/-- The function `RenogyRover::getBatteryState(BatteryState* state)`. -/
def RenogyRover.getBatteryState (self : RenogyRover) (state : BatteryState) :
    Outcome BatteryState :=
  let state := { state with
    batteryTemperature := 0,
    chargingCurrent := 0,
    controllerTemperature := 0,
    stateOfCharge := 0,
    batteryVoltage := 0 }
  let registerBase := 0x0100
  let registerLength := 4
  let values := List.replicate registerLength 0
  let r := self._readHoldingRegisters registerBase registerLength values
  if r.ret = 0 then
    ⟨0, r.self, state⟩
  else
    let values := r.out
    let state := { state with
      stateOfCharge := toInt16 (values.getD 0 0),
      batteryVoltage := (toInt16 (values.getD 1 0) : ℚ) * (1 / 10),
      chargingCurrent := (toInt16 (values.getD 2 0) : ℚ) * (1 / 100),
      batteryTemperature := (RenogyRover._convertSignedMagnitude (values.getD 3 0) : ℚ),
      controllerTemperature :=
        (RenogyRover._convertSignedMagnitude (values.getD 3 0 >>> 8) : ℚ) }
    ⟨1, r.self, state⟩

/-- The function `RenogyRover::getDayStatistics(DayStatistics* params)`. -/
def RenogyRover.getDayStatistics (self : RenogyRover) (params : DayStatistics) :
    Outcome DayStatistics :=
  let params := { params with
    batteryVoltageMaxForDay := 0,
    batteryVoltageMinForDay := 0,
    chargingAmpHoursForDay := 0,
    maxChargeCurrentForDay := 0,
    maxChargePowerForDay := 0,
    dischargingAmpHoursForDay := 0,
    maxDischargeCurrentForDay := 0,
    maxDischargePowerForDay := 0,
    powerGenerationForDay := 0,
    powerConsumptionForDay := 0 }
  let registerBase := 0x010B
  let registerLength := 10
  let values := List.replicate registerLength 0
  let r := self._readHoldingRegisters registerBase registerLength values
  if r.ret = 0 then
    ⟨0, r.self, params⟩
  else
    let values := r.out
    let params := { params with
      batteryVoltageMinForDay := (toInt16 (values.getD 0 0) : ℚ) * (1 / 10),
      batteryVoltageMaxForDay := (toInt16 (values.getD 1 0) : ℚ) * (1 / 10),
      maxChargeCurrentForDay := (toInt16 (values.getD 2 0) : ℚ) * (1 / 100),
      maxDischargeCurrentForDay := (toInt16 (values.getD 3 0) : ℚ) * (1 / 100),
      maxChargePowerForDay := (toInt16 (values.getD 4 0) : ℚ),
      maxDischargePowerForDay := (toInt16 (values.getD 5 0) : ℚ),
      chargingAmpHoursForDay := (toInt16 (values.getD 6 0) : ℚ),
      dischargingAmpHoursForDay := (toInt16 (values.getD 7 0) : ℚ),
      powerGenerationForDay := (toInt16 (values.getD 8 0) : ℚ),
      powerConsumptionForDay := (toInt16 (values.getD 9 0) : ℚ) }
    ⟨1, r.self, params⟩

/-- The loop of `getHistoricalStatistics` that assembles `integers` from `values`:
for each `i`, `integers[i] = ((int32_t) values[j++]) << 8` and then
`integers[i] = integers[i] | ((int32_t) values[j++])`, stored as `uint32_t`.  The state
of the loop is the pair of `j` and `integers`. -/
def assembleIntegers (registerLength : Nat) (values integers : List Nat) : List Nat :=
  ((List.range (registerLength / 2)).foldl
    (fun (st : Nat × List Nat) i =>
      let j := st.1
      let integers := st.2
      let integers := integers.set i ((values.getD j 0 <<< 8) % 2 ^ 32)
      let j := j + 1
      let integers := integers.set i ((integers.getD i 0 ||| values.getD j 0) % 2 ^ 32)
      let j := j + 1
      (j, integers))
    (0, integers)).2

/-- The function `RenogyRover::getHistoricalStatistics(HistStatistics* stats)`, on a
toolchain whose `int` has `intBits` bits. -/
def RenogyRover.getHistoricalStatistics (intBits : Nat) (self : RenogyRover)
    (stats : HistStatistics) : Outcome HistStatistics :=
  let stats := { stats with
    batChargingAmpHours := 0,
    batDischargingAmpHours := 0,
    batFullCharges := 0,
    batOverDischarges := 0,
    operatingDays := 0,
    powerConsumed := 0,
    powerGenerated := 0 }
  let registerBase := 0x0115
  let registerLength := 3
  let values := List.replicate registerLength 0
  let r := self._readHoldingRegisters registerBase registerLength values
  if r.ret = 0 then
    ⟨0, r.self, stats⟩
  else
    let values := r.out
    let stats := { stats with
      operatingDays := toInt16 (values.getD 0 0),
      batOverDischarges := toInt16 (values.getD 1 0),
      batFullCharges := toInt16 (values.getD 2 0) }
    let registerBase := 0x118
    let registerLength := 8
    let values := List.replicate registerLength 0
    let integers := List.replicate (registerLength / 2) 0
    let r := r.self._readHoldingRegisters registerBase registerLength values
    if r.ret = 0 then
      ⟨0, r.self, stats⟩
    else
      let values := r.out
      let integers := assembleIntegers registerLength values integers
      let stats := { stats with
        batChargingAmpHours := toInt intBits (integers.getD 0 0 : Int),
        batDischargingAmpHours := toInt intBits (integers.getD 1 0 : Int),
        powerGenerated := (integers.getD 2 0 : ℚ) / 10000,
        powerConsumed := (integers.getD 3 0 : ℚ) / 10000 }
      ⟨1, r.self, stats⟩

/-- The function `RenogyRover::getChargingState(ChargingState* state)`, on a toolchain
whose `int` has `intBits` bits. -/
def RenogyRover.getChargingState (intBits : Nat) (self : RenogyRover)
    (state : ChargingState) : Outcome ChargingState :=
  let state := { state with
    chargingMode := ChargingMode.UNDEFINED,
    streetLightBrightness := 0,
    streetLightState := 0 }
  let registerBase := 0x0120
  let registerLength := 1
  let values := List.replicate 1 0
  let r := self._readHoldingRegisters registerBase registerLength values
  if r.ret = 0 then
    ⟨0, r.self, state⟩
  else
    let value := r.out.getD 0 0
    let state := { state with
      streetLightState := toInt intBits (((value >>> 15) &&& 1 : Nat) : Int),
      streetLightBrightness :=
        toInt intBits
          (((value >>> 8) &&& complementUnsigned intBits (oneShiftLeftUnsigned intBits 7)
            : Nat) : Int),
      chargingMode := ((toUInt8 value : Nat) : Int) }
    ⟨1, r.self, state⟩

/-- The function `RenogyRover::getErrors(int& errors)`, on a toolchain whose `int` has
`intBits` bits. -/
def RenogyRover.getErrors (intBits : Nat) (self : RenogyRover) (errors : Int) :
    Outcome Int :=
  let registerBase := 0x0121
  let registerLength := 2
  let values := List.replicate registerLength 0
  let r := self._readHoldingRegisters registerBase registerLength values
  if r.ret = 0 then
    ⟨0, r.self, errors⟩
  else
    let values := r.out
    let errors := toInt intBits (shiftLeftU16 intBits (values.getD 0 0) 1 / 2 ^ 1)
    ⟨1, r.self, errors⟩

/-- The function `RenogyRover::setStreetLight(int state)`. -/
def RenogyRover.setStreetLight (self : RenogyRover) (state : Int) : Outcome Unit :=
  if state > 1 ∨ state < 0 then
    ⟨0, self, ()⟩
  else
    let answer := self._client.writeSingleRegister 0x010A (state % 2 ^ 16).toNat
    let self := { self with _client := answer.2, _lastError := answer.1 }
    ⟨if self._lastError = ModbusMaster.ku8MBSuccess then 1 else 0, self, ()⟩

/-! ## Talking about the transport -/

/-- The answer the bus will give if the object now issues a read of `quantity` words at
`address`. -/
def RenogyRover.nextRead (self : RenogyRover) (address quantity : Nat) : Reply :=
  self._client.device self._client.log.length
    (Call.readHoldingRegisters (toUInt16 address) (toUInt16 quantity))

/-- The answer the bus will give if the object now issues a write of `value` to the
register at `address`. -/
def RenogyRover.nextWrite (self : RenogyRover) (address value : Nat) : Reply :=
  self._client.device self._client.log.length
    (Call.writeSingleRegister (toUInt16 address) (toUInt16 value))

/-- The string that starts at the head of a list of `char` cells: the bytes before the
first zero byte.  There is none when an unwritten cell or the end of the array comes
before a zero byte. -/
def cStringOf : List (Option Nat) → Option (List Nat)
  | [] => none
  | none :: _ => none
  | some c :: rest => if c = 0 then some [] else (cStringOf rest).map (fun s => c :: s)

/-- The string a `char*` points at. -/
def CharPtr.cString (p : CharPtr) : Option (List Nat) :=
  cStringOf (p.cells.drop p.index)

/-- An object with identifier 1 and an empty request log whose bus answers the `n`-th
request with the `n`-th entry of `replies`, and with a time-out (code `0xE2`) once the
list is used up. -/
def scriptedRover (replies : List Reply) : RenogyRover :=
  { _client :=
      { device := fun n _ => replies.getD n ⟨0xE2, []⟩
        log := []
        responseBuffer := [] }
    _modbusId := 1
    _lastError := ModbusMaster.ku8MBSuccess }

/-! ## Readings named by the specification -/

/-- The two's-complement reading `signed16` of a 16-bit word, as the specification words
it: words from `0x8000` upwards are negative.  To be compared with the cast `toInt16` of
the code. -/
def specSigned16 (w : Nat) : Int :=
  if w < 0x8000 then (w : Int) else (w : Int) - 0x10000

/-- The word-pair assembly `pair(x, y) = (x << 8) | y`, as the specification words it.
To be compared with the loop `assembleIntegers` of the code. -/
def specPair (x y : Nat) : Nat := (x <<< 8) ||| y

/-- The product model of eight words, as the specification words it: each word gives its
high byte then its low byte, the characters are concatenated, and the first two are
dropped.  To be compared with what `getProductModel` of the code leaves behind. -/
def specProductModel (words : List Nat) : List Nat :=
  (words.flatMap (fun w => [w / 256, w % 256])).drop 2

/-! ## Auxiliary facts -/

/-- A non-negative value below half the range of a signed type is unchanged by the
conversion to it. -/
theorem wrapSigned_of_small (bits : Nat) (x : Int) (h0 : 0 ≤ x) (h : 2 * x < 2 ^ bits) :
    wrapSigned bits x = x := by
  have hm : (0 : Int) < 2 ^ bits := by positivity
  have hx : x % 2 ^ bits = x := Int.emod_eq_of_lt h0 (by omega)
  simp only [wrapSigned, hx]
  rw [if_pos h]

theorem two_pow_int_mono {m n : Nat} (h : m ≤ n) : (2 : Int) ^ m ≤ 2 ^ n :=
  pow_le_pow_right₀ (by norm_num) h

theorem two_pow_nat_mono {m n : Nat} (h : m ≤ n) : (2 : Nat) ^ m ≤ 2 ^ n :=
  Nat.pow_le_pow_right (by norm_num) h

/-- The result code that the client reports for a read is the status of `nextRead`, as a
`uint8_t`; `_readHoldingRegisters` records that code in `_lastError`. -/
theorem readHoldingRegisters_reports (self : RenogyRover) (base length : Nat)
    (values : List Nat) :
    (self._client.readHoldingRegisters base length).1 =
      toUInt8 (self.nextRead base length).status ∧
    (self._readHoldingRegisters base length values).self._lastError =
      toUInt8 (self.nextRead base length).status := by
  constructor
  · rfl
  · unfold RenogyRover._readHoldingRegisters
    dsimp only
    split <;> rfl

/-- A failed read: `_readHoldingRegisters` returns 0 and does not touch `values`. -/
theorem readHoldingRegisters_failure (self : RenogyRover) (base length : Nat)
    (values : List Nat)
    (hf : toUInt8 (self.nextRead base length).status ≠ ModbusMaster.ku8MBSuccess) :
    (self._readHoldingRegisters base length values).ret = 0 ∧
    (self._readHoldingRegisters base length values).out = values := by
  simp only [RenogyRover.nextRead] at hf
  simp [RenogyRover._readHoldingRegisters, ModbusMaster.readHoldingRegisters, hf]

/-- A successful read: `_readHoldingRegisters` returns 1 and `values` receives the words
of the answer, one per index. -/
theorem readHoldingRegisters_success (self : RenogyRover) (base length : Nat)
    (values : List Nat)
    (hs : toUInt8 (self.nextRead base length).status = ModbusMaster.ku8MBSuccess) :
    (self._readHoldingRegisters base length values).ret = 1 ∧
    (self._readHoldingRegisters base length values).out =
      (List.range length).foldl
        (fun vs i => vs.set i
          (if toUInt8 i < ModbusMaster.ku8MaxBufferSize then
            toUInt16 ((self.nextRead base length).words.getD (toUInt8 i) 0)
           else 0xFFFF)) values := by
  simp only [RenogyRover.nextRead] at hs
  simp [RenogyRover._readHoldingRegisters, ModbusMaster.readHoldingRegisters, hs,
    ModbusMaster.getResponseBuffer, RenogyRover.nextRead]

/-! ## `getErrors` -/

/-- After a successful read `getErrors` returns 1 and `errors` is the value of the C++
expression `(values[0] << 1U) >> 1U`, converted to `int`. -/
theorem getErrors_success (intBits : Nat) (self : RenogyRover) (errors : Int)
    (w0 w1 : Nat) (h0 : w0 < 2 ^ 16)
    (hs : (self.nextRead 0x0121 2).status = ModbusMaster.ku8MBSuccess)
    (hw : (self.nextRead 0x0121 2).words = [w0, w1]) :
    (self.getErrors intBits errors).ret = 1 ∧
    (self.getErrors intBits errors).out =
      toInt intBits (shiftLeftU16 intBits w0 1 / 2 ^ 1) := by
  have hs8 : toUInt8 (self.nextRead 0x0121 2).status = ModbusMaster.ku8MBSuccess := by
    rw [hs]; rfl
  have h := readHoldingRegisters_success self 0x0121 2 (List.replicate 2 0) hs8
  have e0 : toUInt16 w0 = w0 := Nat.mod_eq_of_lt h0
  simp only [RenogyRover.getErrors, h.1, h.2, hw]
  simp [List.range, List.range.loop, toUInt8, ModbusMaster.ku8MaxBufferSize, e0]

/-- Where `int` has 16 bits the shifts are done in `unsigned int` and `getErrors` clears
bit 15 of the first word: `errors = word0 & 0x7FFF`. -/
theorem getErrors_int16_clears_top_bit (self : RenogyRover) (errors : Int)
    (w0 w1 : Nat) (h0 : w0 < 2 ^ 16)
    (hs : (self.nextRead 0x0121 2).status = ModbusMaster.ku8MBSuccess)
    (hw : (self.nextRead 0x0121 2).words = [w0, w1]) :
    (self.getErrors 16 errors).ret = 1 ∧
    (self.getErrors 16 errors).out = ((w0 &&& 0x7FFF : Nat) : Int) := by
  obtain ⟨hr, ho⟩ := getErrors_success 16 self errors w0 w1 h0 hs hw
  refine ⟨hr, ?_⟩
  rw [ho]
  have e1 : w0 &&& 0x7FFF = w0 % 2 ^ 15 := Nat.and_pow_two_sub_one_eq_mod w0 15
  have e2 : shiftLeftU16 16 w0 1 / 2 ^ 1 = ((w0 % 2 ^ 15 : Nat) : Int) := by
    simp only [shiftLeftU16, Nat.shiftLeft_eq]
    norm_num
    omega
  rw [e1, e2]
  apply wrapSigned_of_small
  · exact Int.ofNat_nonneg _
  · have : w0 % 2 ^ 15 < 2 ^ 15 := Nat.mod_lt _ (by norm_num)
    norm_num at this ⊢
    omega

/-- Where `int` has at least 32 bits the first word is promoted to `int` before the
shifts, nothing is shifted out, and `getErrors` stores the first word unchanged: bit 15
is kept. -/
theorem getErrors_wide_int_keeps_word (intBits : Nat) (hbits : 32 ≤ intBits)
    (self : RenogyRover) (errors : Int) (w0 w1 : Nat) (h0 : w0 < 2 ^ 16)
    (hs : (self.nextRead 0x0121 2).status = ModbusMaster.ku8MBSuccess)
    (hw : (self.nextRead 0x0121 2).words = [w0, w1]) :
    (self.getErrors intBits errors).ret = 1 ∧
    (self.getErrors intBits errors).out = (w0 : Int) := by
  obtain ⟨hr, ho⟩ := getErrors_success intBits self errors w0 w1 h0 hs hw
  refine ⟨hr, ?_⟩
  rw [ho]
  have hp : (2 : Int) ^ 32 ≤ 2 ^ intBits := two_pow_int_mono hbits
  have h0i : (w0 : Int) < 65536 := by
    have : w0 < 65536 := by simpa using h0
    exact_mod_cast this
  have e2 : shiftLeftU16 intBits w0 1 / 2 ^ 1 = (w0 : Int) := by
    simp only [shiftLeftU16, Nat.shiftLeft_eq]
    rw [if_pos (by omega)]
    rw [wrapSigned_of_small _ _ (by positivity) (by push_cast; norm_num at hp ⊢; omega)]
    push_cast
    omega
  rw [e2]
  exact wrapSigned_of_small _ _ (by positivity) (by norm_num at hp ⊢; omega)

/-- C1 (code defect): on a toolchain with a 32-bit `int`, a successful read of the words
`[0x8005, 0x0000]` at `0x0121` makes `getErrors` return 1 with `errors = 0x8005`: bit 15
of the first word is not cleared, and the result is not
`0x0005 = BAT_OVER_DISCHARGE | BAT_UNDER_VOLTAGE_WARNING`. -/
theorem getErrors_int32_keeps_top_bit :
    ((scriptedRover [⟨ModbusMaster.ku8MBSuccess, [0x8005, 0x0000]⟩]).getErrors 32 0).ret = 1 ∧
    ((scriptedRover [⟨ModbusMaster.ku8MBSuccess, [0x8005, 0x0000]⟩]).getErrors 32 0).out
      = 0x8005 ∧
    ((scriptedRover [⟨ModbusMaster.ku8MBSuccess, [0x8005, 0x0000]⟩]).getErrors 32 0).out
      ≠ ((FaultCode.BAT_OVER_DISCHARGE ||| FaultCode.BAT_UNDER_VOLTAGE_WARNING : Nat) : Int) := by
  decide

/-- C4 (code defect): `getErrors` does not reset its output before the read.  With the
prior value `errors = 7` and a read that fails with a time-out (`0xE2`), it returns 0 and
`errors` is still 7, not 0. -/
theorem getErrors_failure_keeps_prior_value :
    ((scriptedRover [⟨0xE2, []⟩]).getErrors 32 7).ret = 0 ∧
    ((scriptedRover [⟨0xE2, []⟩]).getErrors 32 7).out = 7 ∧
    ((scriptedRover [⟨0xE2, []⟩]).getErrors 32 7).out ≠ 0 := by
  decide

/-- A failed read makes `getErrors` return 0 and leaves `errors` at its prior value,
whatever that value and the width of `int`. -/
theorem getErrors_failure_unchanged (intBits : Nat) (self : RenogyRover) (errors : Int)
    (hf : toUInt8 (self.nextRead 0x0121 2).status ≠ ModbusMaster.ku8MBSuccess) :
    (self.getErrors intBits errors).ret = 0 ∧
    (self.getErrors intBits errors).out = errors := by
  have h := readHoldingRegisters_failure self 0x0121 2 (List.replicate 2 0) hf
  simp only [RenogyRover.getErrors, h.1, if_true, and_self]

/-! ## `getHistoricalStatistics` -/

/-- When the first read (3 words at `0x0115`) fails, `getHistoricalStatistics` returns 0
and all seven fields are 0. -/
theorem getHistoricalStatistics_first_read_failure (intBits : Nat) (self : RenogyRover)
    (stats : HistStatistics)
    (hf : toUInt8 (self.nextRead 0x0115 3).status ≠ ModbusMaster.ku8MBSuccess) :
    (self.getHistoricalStatistics intBits stats).ret = 0 ∧
    (self.getHistoricalStatistics intBits stats).out = ⟨0, 0, 0, 0, 0, 0, 0⟩ := by
  have h := readHoldingRegisters_failure self 0x0115 3 (List.replicate 3 0) hf
  unfold RenogyRover.getHistoricalStatistics
  dsimp only
  rw [if_pos h.1]
  exact ⟨rfl, rfl⟩

/-- When the first read succeeds with the words `a0, a1, a2` and the second read (8 words
at `0x0118`) fails, `getHistoricalStatistics` returns 0 with the three counters of the
first read already stored; the other four fields are 0. -/
theorem getHistoricalStatistics_second_read_failure (intBits : Nat) (self : RenogyRover)
    (stats : HistStatistics) (a0 a1 a2 : Nat)
    (h0 : a0 < 2 ^ 16) (h1 : a1 < 2 ^ 16) (h2 : a2 < 2 ^ 16)
    (hs : (self.nextRead 0x0115 3).status = ModbusMaster.ku8MBSuccess)
    (hw : (self.nextRead 0x0115 3).words = [a0, a1, a2])
    (hf : toUInt8 (((self._readHoldingRegisters 0x0115 3 (List.replicate 3 0)).self).nextRead
      0x0118 8).status ≠ ModbusMaster.ku8MBSuccess) :
    (self.getHistoricalStatistics intBits stats).ret = 0 ∧
    (self.getHistoricalStatistics intBits stats).out =
      ⟨toInt16 a0, toInt16 a1, toInt16 a2, 0, 0, 0, 0⟩ := by
  have hs8 : toUInt8 (self.nextRead 0x0115 3).status = ModbusMaster.ku8MBSuccess := by
    rw [hs]; rfl
  have h := readHoldingRegisters_success self 0x0115 3 (List.replicate 3 0) hs8
  have hfail := readHoldingRegisters_failure
    ((self._readHoldingRegisters 0x0115 3 (List.replicate 3 0)).self) 0x0118 8
    (List.replicate 8 0) hf
  have e0 : toUInt16 a0 = a0 := Nat.mod_eq_of_lt h0
  have e1 : toUInt16 a1 = a1 := Nat.mod_eq_of_lt h1
  have e2 : toUInt16 a2 = a2 := Nat.mod_eq_of_lt h2
  have hv : (self._readHoldingRegisters 0x0115 3 (List.replicate 3 0)).out = [a0, a1, a2] := by
    rw [h.2, hw]
    simp [List.range, List.range.loop, toUInt8, ModbusMaster.ku8MaxBufferSize, e0, e1, e2]
  have hne : ¬ (self._readHoldingRegisters 0x0115 3 (List.replicate 3 0)).ret = 0 := by
    rw [h.1]; decide
  unfold RenogyRover.getHistoricalStatistics
  dsimp only
  rw [if_neg hne, if_pos hfail.1, hv]
  exact ⟨rfl, rfl⟩

/-- C2 (code defect): when the first read succeeds with the words `[5, 6, 7]` and the
second read fails with a time-out (`0xE2`), `getHistoricalStatistics` returns 0 but the
record is partially filled: `operatingDays = 5`, `batOverDischarges = 6`,
`batFullCharges = 7`.  Both reads were issued. -/
theorem getHistoricalStatistics_partial_fill :
    ((scriptedRover [⟨ModbusMaster.ku8MBSuccess, [5, 6, 7]⟩, ⟨0xE2, []⟩]).getHistoricalStatistics
      32 ⟨0, 0, 0, 0, 0, 0, 0⟩).ret = 0 ∧
    ((scriptedRover [⟨ModbusMaster.ku8MBSuccess, [5, 6, 7]⟩, ⟨0xE2, []⟩]).getHistoricalStatistics
      32 ⟨0, 0, 0, 0, 0, 0, 0⟩).out.operatingDays = 5 ∧
    ((scriptedRover [⟨ModbusMaster.ku8MBSuccess, [5, 6, 7]⟩, ⟨0xE2, []⟩]).getHistoricalStatistics
      32 ⟨0, 0, 0, 0, 0, 0, 0⟩).out.batOverDischarges = 6 ∧
    ((scriptedRover [⟨ModbusMaster.ku8MBSuccess, [5, 6, 7]⟩, ⟨0xE2, []⟩]).getHistoricalStatistics
      32 ⟨0, 0, 0, 0, 0, 0, 0⟩).out.batFullCharges = 7 ∧
    ((scriptedRover [⟨ModbusMaster.ku8MBSuccess, [5, 6, 7]⟩, ⟨0xE2, []⟩]).getHistoricalStatistics
      32 ⟨0, 0, 0, 0, 0, 0, 0⟩).self._client.log =
      [Call.readHoldingRegisters 0x0115 3, Call.readHoldingRegisters 0x0118 8] := by
  decide

/-! ## The single-read record operations -/

/-- Success and failure of `_readHoldingRegisters` in the form the callers test. -/
theorem readHoldingRegisters_ret (self : RenogyRover) (base length : Nat)
    (values : List Nat) :
    (toUInt8 (self.nextRead base length).status = ModbusMaster.ku8MBSuccess →
      ¬ (self._readHoldingRegisters base length values).ret = 0) ∧
    (toUInt8 (self.nextRead base length).status ≠ ModbusMaster.ku8MBSuccess →
      (self._readHoldingRegisters base length values).ret = 0) := by
  constructor
  · intro hs
    rw [(readHoldingRegisters_success self base length values hs).1]
    decide
  · intro hf
    exact (readHoldingRegisters_failure self base length values hf).1

/-- C3: for `getPanelState`, `getBatteryState`, `getDayStatistics` and `getChargingState`,
whatever the prior content of the record: the operation returns 1 exactly when the
transport reports success for its read, it returns 0 otherwise, and after a failed read
every field has its empty value (0, and `UNDEFINED = -1` for `chargingMode`). -/
theorem single_read_operations_all_or_nothing (intBits : Nat) (self : RenogyRover)
    (panel : PanelState) (battery : BatteryState) (day : DayStatistics)
    (charging : ChargingState) :
    (((self.getPanelState panel).ret = 1 ↔
        toUInt8 (self.nextRead 0x0107 3).status = ModbusMaster.ku8MBSuccess) ∧
      (toUInt8 (self.nextRead 0x0107 3).status ≠ ModbusMaster.ku8MBSuccess →
        (self.getPanelState panel).ret = 0 ∧
        (self.getPanelState panel).out = ⟨0, 0, 0⟩)) ∧
    (((self.getBatteryState battery).ret = 1 ↔
        toUInt8 (self.nextRead 0x0100 4).status = ModbusMaster.ku8MBSuccess) ∧
      (toUInt8 (self.nextRead 0x0100 4).status ≠ ModbusMaster.ku8MBSuccess →
        (self.getBatteryState battery).ret = 0 ∧
        (self.getBatteryState battery).out = ⟨0, 0, 0, 0, 0⟩)) ∧
    (((self.getDayStatistics day).ret = 1 ↔
        toUInt8 (self.nextRead 0x010B 10).status = ModbusMaster.ku8MBSuccess) ∧
      (toUInt8 (self.nextRead 0x010B 10).status ≠ ModbusMaster.ku8MBSuccess →
        (self.getDayStatistics day).ret = 0 ∧
        (self.getDayStatistics day).out = ⟨0, 0, 0, 0, 0, 0, 0, 0, 0, 0⟩)) ∧
    (((self.getChargingState intBits charging).ret = 1 ↔
        toUInt8 (self.nextRead 0x0120 1).status = ModbusMaster.ku8MBSuccess) ∧
      (toUInt8 (self.nextRead 0x0120 1).status ≠ ModbusMaster.ku8MBSuccess →
        (self.getChargingState intBits charging).ret = 0 ∧
        (self.getChargingState intBits charging).out =
          ⟨0, 0, ChargingMode.UNDEFINED⟩)) := by
  refine ⟨?_, ?_, ?_, ?_⟩
  · have h := readHoldingRegisters_ret self 0x0107 3 (List.replicate 3 0)
    unfold RenogyRover.getPanelState
    dsimp only
    by_cases hs : toUInt8 (self.nextRead 0x0107 3).status = ModbusMaster.ku8MBSuccess
    · rw [if_neg (h.1 hs)]
      exact ⟨⟨fun _ => hs, fun _ => rfl⟩, fun hn => absurd hs hn⟩
    · rw [if_pos (h.2 hs)]
      exact ⟨⟨fun h1 => absurd (show (0 : Int) = 1 from h1) (by decide), fun h2 => absurd h2 hs⟩, fun _ => ⟨rfl, rfl⟩⟩
  · have h := readHoldingRegisters_ret self 0x0100 4 (List.replicate 4 0)
    unfold RenogyRover.getBatteryState
    dsimp only
    by_cases hs : toUInt8 (self.nextRead 0x0100 4).status = ModbusMaster.ku8MBSuccess
    · rw [if_neg (h.1 hs)]
      exact ⟨⟨fun _ => hs, fun _ => rfl⟩, fun hn => absurd hs hn⟩
    · rw [if_pos (h.2 hs)]
      exact ⟨⟨fun h1 => absurd (show (0 : Int) = 1 from h1) (by decide), fun h2 => absurd h2 hs⟩, fun _ => ⟨rfl, rfl⟩⟩
  · have h := readHoldingRegisters_ret self 0x010B 10 (List.replicate 10 0)
    unfold RenogyRover.getDayStatistics
    dsimp only
    by_cases hs : toUInt8 (self.nextRead 0x010B 10).status = ModbusMaster.ku8MBSuccess
    · rw [if_neg (h.1 hs)]
      exact ⟨⟨fun _ => hs, fun _ => rfl⟩, fun hn => absurd hs hn⟩
    · rw [if_pos (h.2 hs)]
      exact ⟨⟨fun h1 => absurd (show (0 : Int) = 1 from h1) (by decide), fun h2 => absurd h2 hs⟩, fun _ => ⟨rfl, rfl⟩⟩
  · have h := readHoldingRegisters_ret self 0x0120 1 (List.replicate 1 0)
    unfold RenogyRover.getChargingState
    dsimp only
    by_cases hs : toUInt8 (self.nextRead 0x0120 1).status = ModbusMaster.ku8MBSuccess
    · rw [if_neg (h.1 hs)]
      exact ⟨⟨fun _ => hs, fun _ => rfl⟩, fun hn => absurd hs hn⟩
    · rw [if_pos (h.2 hs)]
      exact ⟨⟨fun h1 => absurd (show (0 : Int) = 1 from h1) (by decide), fun h2 => absurd h2 hs⟩, fun _ => ⟨rfl, rfl⟩⟩

/-- C3, at a concrete input: with the prior record `(1, 2, 3)` and a read that times out,
`getPanelState` returns 0 and the record is `(0, 0, 0)`. -/
theorem single_read_operations_all_or_nothing_witness :
    ((scriptedRover [⟨0xE2, []⟩]).getPanelState ⟨1, 2, 3⟩).ret = 0 ∧
    ((scriptedRover [⟨0xE2, []⟩]).getPanelState ⟨1, 2, 3⟩).out = ⟨0, 0, 0⟩ :=
  (single_read_operations_all_or_nothing 32 (scriptedRover [⟨0xE2, []⟩]) ⟨1, 2, 3⟩
    ⟨1, 2, 3, 4, 5⟩ ⟨1, 2, 3, 4, 5, 6, 7, 8, 9, 10⟩ ⟨1, 50, 2⟩).1.2 (by decide)

/-! ## `_convertSignedMagnitude` -/

/-- C5: for every byte `b`, `_convertSignedMagnitude b` is `b` when bit 7 of `b` is clear
and `-(b & 0x7F)` when it is set; the result lies in `[-127, 127]`; and the bytes `0x00`,
`0x80`, `0x05`, `0x85` decode to 0, 0, 5, -5. -/
theorem convertSignedMagnitude_decodes (b : Nat) (hb : b < 256) :
    (b.testBit 7 = false → RenogyRover._convertSignedMagnitude b = (b : Int)) ∧
    (b.testBit 7 = true →
      RenogyRover._convertSignedMagnitude b = -((b &&& 0x7F : Nat) : Int)) ∧
    -127 ≤ RenogyRover._convertSignedMagnitude b ∧
    RenogyRover._convertSignedMagnitude b ≤ 127 ∧
    RenogyRover._convertSignedMagnitude 0x00 = 0 ∧
    RenogyRover._convertSignedMagnitude 0x80 = 0 ∧
    RenogyRover._convertSignedMagnitude 0x05 = 5 ∧
    RenogyRover._convertSignedMagnitude 0x85 = -5 := by
  interval_cases b <;> decide

/-- C5, at the byte `0x85`: bit 7 is set and the result is `-(0x85 & 0x7F) = -5`. -/
theorem convertSignedMagnitude_decodes_witness :
    (0x85 : Nat) < 256 ∧ (0x85 : Nat).testBit 7 = true ∧
    RenogyRover._convertSignedMagnitude 0x85 = -((0x85 &&& 0x7F : Nat) : Int) ∧
    -127 ≤ RenogyRover._convertSignedMagnitude 0x85 ∧
    RenogyRover._convertSignedMagnitude 0x85 ≤ 127 :=
  ⟨by decide, by decide,
    (convertSignedMagnitude_decodes 0x85 (by decide)).2.1 (by decide),
    (convertSignedMagnitude_decodes 0x85 (by decide)).2.2.1,
    (convertSignedMagnitude_decodes 0x85 (by decide)).2.2.2.1⟩

/-! ## `getBatteryState` -/

/-- The cast `(int16_t)` of a 16-bit word is its two's-complement reading. -/
theorem toInt16_eq_specSigned16 (w : Nat) (hw : w < 2 ^ 16) :
    toInt16 w = specSigned16 w := by
  have hw1 : w < 65536 := by simpa using hw
  have hw2 : (w : Int) < 65536 := by exact_mod_cast hw1
  have hmod : (w : Int) % 2 ^ 16 = (w : Int) :=
    Int.emod_eq_of_lt (Int.ofNat_nonneg _) (by norm_num; exact hw1)
  simp only [toInt16, wrapSigned, specSigned16, hmod]
  by_cases h : w < 0x8000
  · have h2 : (w : Int) < 32768 := by exact_mod_cast h
    rw [if_pos (by norm_num; omega), if_pos h]
  · have h2 : (32768 : Int) ≤ w := by
      have : 32768 ≤ w := by omega
      exact_mod_cast this
    rw [if_neg (by norm_num; omega), if_neg h]
    norm_num

/-- C6: after a successful read of the words `w0, w1, w2, w3` at `0x0100`,
`getBatteryState` returns 1 with `stateOfCharge = signed16(w0)`,
`batteryVoltage = signed16(w1) / 10`, `chargingCurrent = signed16(w2) / 100`,
`batteryTemperature` the signed-magnitude decode of the low byte of `w3` and
`controllerTemperature` that of the high byte of `w3`. -/
theorem getBatteryState_decodes (self : RenogyRover) (state : BatteryState)
    (w0 w1 w2 w3 : Nat)
    (h0 : w0 < 2 ^ 16) (h1 : w1 < 2 ^ 16) (h2 : w2 < 2 ^ 16) (h3 : w3 < 2 ^ 16)
    (hs : (self.nextRead 0x0100 4).status = ModbusMaster.ku8MBSuccess)
    (hw : (self.nextRead 0x0100 4).words = [w0, w1, w2, w3]) :
    (self.getBatteryState state).ret = 1 ∧
    (self.getBatteryState state).out.stateOfCharge = specSigned16 w0 ∧
    (self.getBatteryState state).out.batteryVoltage = (specSigned16 w1 : ℚ) / 10 ∧
    (self.getBatteryState state).out.chargingCurrent = (specSigned16 w2 : ℚ) / 100 ∧
    (self.getBatteryState state).out.batteryTemperature =
      (RenogyRover._convertSignedMagnitude (w3 % 256) : ℚ) ∧
    (self.getBatteryState state).out.controllerTemperature =
      (RenogyRover._convertSignedMagnitude (w3 / 256) : ℚ) := by
  have hs8 : toUInt8 (self.nextRead 0x0100 4).status = ModbusMaster.ku8MBSuccess := by
    rw [hs]; rfl
  have h := readHoldingRegisters_success self 0x0100 4 (List.replicate 4 0) hs8
  have hne := (readHoldingRegisters_ret self 0x0100 4 (List.replicate 4 0)).1 hs8
  have e0 : toUInt16 w0 = w0 := Nat.mod_eq_of_lt h0
  have e1 : toUInt16 w1 = w1 := Nat.mod_eq_of_lt h1
  have e2 : toUInt16 w2 = w2 := Nat.mod_eq_of_lt h2
  have e3 : toUInt16 w3 = w3 := Nat.mod_eq_of_lt h3
  have hv : (self._readHoldingRegisters 0x0100 4 (List.replicate 4 0)).out =
      [w0, w1, w2, w3] := by
    rw [h.2, hw]
    simp [List.range, List.range.loop, toUInt8, ModbusMaster.ku8MaxBufferSize,
      e0, e1, e2, e3]
  have elow : RenogyRover._convertSignedMagnitude w3 =
      RenogyRover._convertSignedMagnitude (w3 % 256) := by
    simp [RenogyRover._convertSignedMagnitude, toUInt8]
  have ehigh : w3 >>> 8 = w3 / 256 := by
    rw [Nat.shiftRight_eq_div_pow]
  unfold RenogyRover.getBatteryState
  dsimp only
  rw [if_neg hne, hv]
  simp only [List.getD_cons_zero, List.getD_cons_succ, toInt16_eq_specSigned16 _ h0,
    toInt16_eq_specSigned16 _ h1, toInt16_eq_specSigned16 _ h2, ehigh, ← elow]
  refine ⟨trivial, trivial, ?_, ?_, trivial, trivial⟩
  · ring
  · ring

/-- C6, at the words `[85, 252, 120, 0x0A14]`: state of charge 85, battery voltage 25.2,
charging current 1.20, battery temperature 20 and controller temperature 10. -/
theorem getBatteryState_decodes_witness :
    ((scriptedRover [⟨0, [85, 252, 120, 0x0A14]⟩]).getBatteryState ⟨0, 0, 0, 0, 0⟩).ret = 1 ∧
    ((scriptedRover [⟨0, [85, 252, 120, 0x0A14]⟩]).getBatteryState
      ⟨0, 0, 0, 0, 0⟩).out.stateOfCharge = 85 ∧
    ((scriptedRover [⟨0, [85, 252, 120, 0x0A14]⟩]).getBatteryState
      ⟨0, 0, 0, 0, 0⟩).out.batteryVoltage = 252 / 10 ∧
    ((scriptedRover [⟨0, [85, 252, 120, 0x0A14]⟩]).getBatteryState
      ⟨0, 0, 0, 0, 0⟩).out.chargingCurrent = 120 / 100 ∧
    ((scriptedRover [⟨0, [85, 252, 120, 0x0A14]⟩]).getBatteryState
      ⟨0, 0, 0, 0, 0⟩).out.batteryTemperature = 20 ∧
    ((scriptedRover [⟨0, [85, 252, 120, 0x0A14]⟩]).getBatteryState
      ⟨0, 0, 0, 0, 0⟩).out.controllerTemperature = 10 := by
  have h := getBatteryState_decodes (scriptedRover [⟨0, [85, 252, 120, 0x0A14]⟩])
    ⟨0, 0, 0, 0, 0⟩ 85 252 120 0x0A14 (by decide) (by decide) (by decide) (by decide)
    rfl rfl
  have s0 : specSigned16 85 = 85 := by decide
  have s1 : specSigned16 252 = 252 := by decide
  have s2 : specSigned16 120 = 120 := by decide
  have t1 : RenogyRover._convertSignedMagnitude (0x0A14 % 256) = 20 := by decide
  have t2 : RenogyRover._convertSignedMagnitude (0x0A14 / 256) = 10 := by decide
  rw [s0, s1, s2, t1, t2] at h
  refine ⟨h.1, h.2.1, ?_, ?_, ?_, ?_⟩
  · rw [h.2.2.1]; norm_num
  · rw [h.2.2.2.1]; norm_num
  · rw [h.2.2.2.2.1]; norm_num
  · rw [h.2.2.2.2.2]; norm_num

/-! ## `getChargingState` -/

/-- The mask `~(1U << 7)` keeps bits 0 to 6 of a byte and drops bit 7, whatever the width
of `unsigned int`: on a byte it acts as `0x7F`. -/
theorem land_complement_bit7 (n x : Nat) (hn : 8 ≤ n) (hx : x < 2 ^ 8) :
    x &&& complementUnsigned n (oneShiftLeftUnsigned n 7) = x &&& 0x7F := by
  have h8 : (2 : Nat) ^ 8 ≤ 2 ^ n := two_pow_nat_mono hn
  have h128 : (128 : Nat) < 2 ^ n := by
    have : (2 : Nat) ^ 8 = 256 := by norm_num
    omega
  have hmask : complementUnsigned n (oneShiftLeftUnsigned n 7) = 2 ^ n - (128 + 1) := by
    have e1 : (1 : Nat) <<< 7 = 128 := by decide
    simp only [complementUnsigned, oneShiftLeftUnsigned, e1, Nat.mod_mod]
    rw [Nat.mod_eq_of_lt h128]
    omega
  rw [hmask]
  apply Nat.eq_of_testBit_eq
  intro i
  rw [Nat.testBit_and, Nat.testBit_and, Nat.testBit_two_pow_sub_succ h128]
  have e127 : (0x7F : Nat) = 2 ^ 7 - 1 := by norm_num
  rw [e127, Nat.testBit_two_pow_sub_one]
  rcases Nat.lt_or_ge i 8 with hi | hi
  · have hin : i < n := by omega
    interval_cases i <;> simp [hin, Nat.testBit]
  · have hxi : x.testBit i = false :=
      Nat.testBit_lt_two_pow (lt_of_lt_of_le hx (two_pow_nat_mono hi))
    simp [hxi]

/-- After a successful read of the word `w` at `0x0120`, `getChargingState` returns 1 and
the record holds `(w >> 15) & 1`, `(w >> 8) & 0x7F` and `w % 256`. -/
theorem getChargingState_success (intBits : Nat) (hbits : 16 ≤ intBits)
    (self : RenogyRover) (state : ChargingState) (w : Nat) (h0 : w < 2 ^ 16)
    (hs : (self.nextRead 0x0120 1).status = ModbusMaster.ku8MBSuccess)
    (hw : (self.nextRead 0x0120 1).words = [w]) :
    (self.getChargingState intBits state).ret = 1 ∧
    (self.getChargingState intBits state).out =
      ⟨(((w >>> 15) &&& 1 : Nat) : Int), (((w >>> 8) &&& 0x7F : Nat) : Int),
        ((w % 256 : Nat) : Int)⟩ := by
  have hs8 : toUInt8 (self.nextRead 0x0120 1).status = ModbusMaster.ku8MBSuccess := by
    rw [hs]; rfl
  have h := readHoldingRegisters_success self 0x0120 1 (List.replicate 1 0) hs8
  have hne := (readHoldingRegisters_ret self 0x0120 1 (List.replicate 1 0)).1 hs8
  have e0 : toUInt16 w = w := Nat.mod_eq_of_lt h0
  have hv : (self._readHoldingRegisters 0x0120 1 (List.replicate 1 0)).out = [w] := by
    rw [h.2, hw]
    simp [List.range, List.range.loop, toUInt8, ModbusMaster.ku8MaxBufferSize, e0]
  have hp : (2 : Int) ^ 16 ≤ 2 ^ intBits := two_pow_int_mono hbits
  have hx : w >>> 8 < 2 ^ 8 := by
    rw [Nat.shiftRight_eq_div_pow]
    have : w < 65536 := by simpa using h0
    norm_num
    omega
  have hb : (w >>> 8) &&& complementUnsigned intBits (oneShiftLeftUnsigned intBits 7)
      = (w >>> 8) &&& 0x7F := land_complement_bit7 intBits (w >>> 8) (by omega) hx
  have hb2 : (w >>> 8) &&& 0x7F ≤ 0x7F := Nat.and_le_right
  have hl : (w >>> 15) &&& 1 ≤ 1 := Nat.and_le_right
  have hbi : ((((w >>> 8) &&& 0x7F : Nat) : Int)) ≤ 127 := by exact_mod_cast hb2
  have hli : ((((w >>> 15) &&& 1 : Nat) : Int)) ≤ 1 := by exact_mod_cast hl
  have t1 : toInt intBits (((w >>> 15) &&& 1 : Nat) : Int) = (((w >>> 15) &&& 1 : Nat) : Int) :=
    wrapSigned_of_small _ _ (Int.ofNat_nonneg _) (by norm_num at hp; omega)
  have t2 : toInt intBits (((w >>> 8) &&& 0x7F : Nat) : Int)
      = (((w >>> 8) &&& 0x7F : Nat) : Int) :=
    wrapSigned_of_small _ _ (Int.ofNat_nonneg _) (by norm_num at hp; omega)
  unfold RenogyRover.getChargingState
  dsimp only
  rw [if_neg hne, hv]
  simp only [List.getD_cons_zero, hb, t1, t2, toUInt8]
  exact ⟨trivial, rfl⟩

/-- C7 (as the specification states it, refuted): for the word `0x8203` the charging mode
that `getChargingState` stores is not `MPPT`. -/
theorem getChargingState_0x8203_not_mppt :
    ¬ (((scriptedRover [⟨0, [0x8203]⟩]).getChargingState 32 ⟨0, 0, 0⟩).out.streetLightState = 1 ∧
      ((scriptedRover [⟨0, [0x8203]⟩]).getChargingState 32
        ⟨0, 0, 0⟩).out.streetLightBrightness = 2 ∧
      ((scriptedRover [⟨0, [0x8203]⟩]).getChargingState 32 ⟨0, 0, 0⟩).out.chargingMode =
        ChargingMode.MPPT) := by
  decide

/-- C7 (amended): for the word `0x8203` returned by a successful read at `0x0120`,
`getChargingState` returns 1 with `streetLightState = 1`, `streetLightBrightness = 2` and
`chargingMode = EQUALIZING`, the enumerator of value 3 (the low byte is `0x03`). -/
theorem getChargingState_0x8203 (intBits : Nat) (hbits : 16 ≤ intBits)
    (self : RenogyRover) (state : ChargingState)
    (hs : (self.nextRead 0x0120 1).status = ModbusMaster.ku8MBSuccess)
    (hw : (self.nextRead 0x0120 1).words = [0x8203]) :
    (self.getChargingState intBits state).ret = 1 ∧
    (self.getChargingState intBits state).out.streetLightState = 1 ∧
    (self.getChargingState intBits state).out.streetLightBrightness = 2 ∧
    (self.getChargingState intBits state).out.chargingMode = ChargingMode.EQUALIZING ∧
    ChargingMode.EQUALIZING = 3 := by
  obtain ⟨hr, ho⟩ :=
    getChargingState_success intBits hbits self state 0x8203 (by decide) hs hw
  rw [ho]
  exact ⟨hr, by decide, by decide, by decide, rfl⟩

/-- C7 (amended), at a concrete object on a 32-bit `int` toolchain. -/
theorem getChargingState_0x8203_witness :
    ((scriptedRover [⟨0, [0x8203]⟩]).getChargingState 32 ⟨0, 0, 0⟩).ret = 1 ∧
    ((scriptedRover [⟨0, [0x8203]⟩]).getChargingState 32 ⟨0, 0, 0⟩).out.streetLightState = 1 ∧
    ((scriptedRover [⟨0, [0x8203]⟩]).getChargingState 32
      ⟨0, 0, 0⟩).out.streetLightBrightness = 2 ∧
    ((scriptedRover [⟨0, [0x8203]⟩]).getChargingState 32 ⟨0, 0, 0⟩).out.chargingMode =
      ChargingMode.EQUALIZING ∧
    ChargingMode.EQUALIZING = 3 :=
  getChargingState_0x8203 32 (by decide) (scriptedRover [⟨0, [0x8203]⟩]) ⟨0, 0, 0⟩ rfl rfl

/-- C8: after a successful read of any 16-bit word `w` at `0x0120`, `getChargingState`
returns 1 with `streetLightState` equal to bit 15 of `w`,
`streetLightBrightness = (w >> 8) & 0x7F`, and `chargingMode` equal in value to the low
byte `w & 0xFF`, whether or not an enumerator has that value. -/
theorem getChargingState_decodes (intBits : Nat) (hbits : 16 ≤ intBits)
    (self : RenogyRover) (state : ChargingState) (w : Nat) (h0 : w < 2 ^ 16)
    (hs : (self.nextRead 0x0120 1).status = ModbusMaster.ku8MBSuccess)
    (hw : (self.nextRead 0x0120 1).words = [w]) :
    (self.getChargingState intBits state).ret = 1 ∧
    (self.getChargingState intBits state).out.streetLightState =
      ((w.testBit 15).toNat : Int) ∧
    (self.getChargingState intBits state).out.streetLightBrightness =
      (((w >>> 8) &&& 0x7F : Nat) : Int) ∧
    (self.getChargingState intBits state).out.chargingMode = ((w &&& 0xFF : Nat) : Int) := by
  obtain ⟨hr, ho⟩ := getChargingState_success intBits hbits self state w h0 hs hw
  rw [ho]
  have eb : (w >>> 15) &&& 1 = (w.testBit 15).toNat := by
    rw [Nat.and_one_is_mod, Nat.shiftRight_eq_div_pow, Nat.toNat_testBit]
  have em : w &&& 0xFF = w % 256 := Nat.and_pow_two_sub_one_eq_mod w 8
  refine ⟨hr, ?_, rfl, ?_⟩
  · show (((w >>> 15) &&& 1 : Nat) : Int) = _
    rw [eb]
  · show ((w % 256 : Nat) : Int) = _
    rw [em]

/-- C8, at the word `0x01C8`: the light is off, the brightness is 1, and the low byte
200, which no enumerator of `ChargingMode` has, is stored as the charging mode. -/
theorem getChargingState_decodes_witness :
    ((scriptedRover [⟨0, [0x01C8]⟩]).getChargingState 32 ⟨0, 0, 0⟩).ret = 1 ∧
    ((scriptedRover [⟨0, [0x01C8]⟩]).getChargingState 32 ⟨0, 0, 0⟩).out.streetLightState =
      (((0x01C8 : Nat).testBit 15).toNat : Int) ∧
    ((scriptedRover [⟨0, [0x01C8]⟩]).getChargingState 32
      ⟨0, 0, 0⟩).out.streetLightBrightness = (((0x01C8 >>> 8) &&& 0x7F : Nat) : Int) ∧
    ((scriptedRover [⟨0, [0x01C8]⟩]).getChargingState 32 ⟨0, 0, 0⟩).out.chargingMode =
      ((0x01C8 &&& 0xFF : Nat) : Int) :=
  getChargingState_decodes 32 (by decide) (scriptedRover [⟨0, [0x01C8]⟩]) ⟨0, 0, 0⟩ 0x01C8
    (by decide) rfl rfl

/-- C9 (as the specification states it, refuted): for the word `0x7F00` the brightness
that `getChargingState` stores is 127, outside the range 0 to 100. -/
theorem getChargingState_brightness_exceeds_100 :
    ((scriptedRover [⟨0, [0x7F00]⟩]).getChargingState 32
      ⟨0, 0, 0⟩).out.streetLightBrightness = 127 ∧
    ¬ (0 ≤ ((scriptedRover [⟨0, [0x7F00]⟩]).getChargingState 32
        ⟨0, 0, 0⟩).out.streetLightBrightness ∧
      ((scriptedRover [⟨0, [0x7F00]⟩]).getChargingState 32
        ⟨0, 0, 0⟩).out.streetLightBrightness ≤ 100) := by
  decide

/-- C9 (amended): for every 16-bit word returned by a successful read at `0x0120`, the
`streetLightBrightness` that `getChargingState` stores is an integer in the range 0 to
127 inclusive. -/
theorem getChargingState_brightness_range (intBits : Nat) (hbits : 16 ≤ intBits)
    (self : RenogyRover) (state : ChargingState) (w : Nat) (h0 : w < 2 ^ 16)
    (hs : (self.nextRead 0x0120 1).status = ModbusMaster.ku8MBSuccess)
    (hw : (self.nextRead 0x0120 1).words = [w]) :
    0 ≤ (self.getChargingState intBits state).out.streetLightBrightness ∧
    (self.getChargingState intBits state).out.streetLightBrightness ≤ 127 := by
  obtain ⟨_, ho⟩ := getChargingState_success intBits hbits self state w h0 hs hw
  rw [ho]
  have hb : (w >>> 8) &&& 0x7F ≤ 0x7F := Nat.and_le_right
  constructor
  · exact Int.ofNat_nonneg _
  · show (((w >>> 8) &&& 0x7F : Nat) : Int) ≤ 127
    exact_mod_cast hb

/-- C9 (amended), at the word `0x7F00`, where the upper bound 127 is reached. -/
theorem getChargingState_brightness_range_witness :
    0 ≤ ((scriptedRover [⟨0, [0x7F00]⟩]).getChargingState 32
      ⟨0, 0, 0⟩).out.streetLightBrightness ∧
    ((scriptedRover [⟨0, [0x7F00]⟩]).getChargingState 32
      ⟨0, 0, 0⟩).out.streetLightBrightness ≤ 127 :=
  getChargingState_brightness_range 32 (by decide) (scriptedRover [⟨0, [0x7F00]⟩]) ⟨0, 0, 0⟩
    0x7F00 (by decide) rfl rfl

/-! ## `setStreetLight` -/

/-- C10: for every integer `state` other than 0 and 1, `setStreetLight state` returns 0
and makes no transport call: the request log, and indeed the whole object, is the same
after the call as before it. -/
theorem setStreetLight_rejects_without_write (self : RenogyRover) (state : Int)
    (h : state ≠ 0 ∧ state ≠ 1) :
    (self.setStreetLight state).ret = 0 ∧
    (self.setStreetLight state).self._client.log = self._client.log ∧
    (self.setStreetLight state).self = self := by
  have hc : state > 1 ∨ state < 0 := by omega
  unfold RenogyRover.setStreetLight
  rw [if_pos hc]
  exact ⟨rfl, rfl, rfl⟩

/-- C10, at `state = 2` and `state = -1` on an object whose log already holds one
request. -/
theorem setStreetLight_rejects_without_write_witness :
    (((scriptedRover [⟨0, []⟩, ⟨0, []⟩]).setStreetLight 1).self.setStreetLight 2).ret = 0 ∧
    (((scriptedRover [⟨0, []⟩, ⟨0, []⟩]).setStreetLight 1).self.setStreetLight
      2).self._client.log = [Call.writeSingleRegister 0x010A 1] ∧
    ((scriptedRover []).setStreetLight (-1)).ret = 0 ∧
    ((scriptedRover []).setStreetLight (-1)).self._client.log = [] :=
  ⟨(setStreetLight_rejects_without_write
      ((scriptedRover [⟨0, []⟩, ⟨0, []⟩]).setStreetLight 1).self 2 (by decide)).1,
    (setStreetLight_rejects_without_write
      ((scriptedRover [⟨0, []⟩, ⟨0, []⟩]).setStreetLight 1).self 2 (by decide)).2.1.trans
      (by decide),
    (setStreetLight_rejects_without_write (scriptedRover []) (-1) (by decide)).1,
    (setStreetLight_rejects_without_write (scriptedRover []) (-1) (by decide)).2.1⟩

/-- C11: for `state` 0 or 1, `setStreetLight state` issues exactly one transport request,
the write of the word `state` to the register `0x010A`; the result code of that write
becomes `_lastError`; and the function returns 1 exactly when that code is
`ku8MBSuccess`, 0 for every other code. -/
theorem setStreetLight_writes_once (self : RenogyRover) (state : Int)
    (h : state = 0 ∨ state = 1) :
    (self.setStreetLight state).self._client.log =
      self._client.log ++ [Call.writeSingleRegister 0x010A state.toNat] ∧
    (self.setStreetLight state).self._lastError =
      toUInt8 (self.nextWrite 0x010A state.toNat).status ∧
    ((self.setStreetLight state).ret = 1 ↔
      toUInt8 (self.nextWrite 0x010A state.toNat).status = ModbusMaster.ku8MBSuccess) ∧
    (toUInt8 (self.nextWrite 0x010A state.toNat).status ≠ ModbusMaster.ku8MBSuccess →
      (self.setStreetLight state).ret = 0) := by
  have hc : ¬ (state > 1 ∨ state < 0) := by omega
  have hv : (state % 2 ^ 16).toNat = state.toNat := by
    rcases h with h | h <;> subst h <;> decide
  have ha : toUInt16 state.toNat = state.toNat := by
    rcases h with h | h <;> subst h <;> decide
  unfold RenogyRover.setStreetLight
  rw [if_neg hc, hv]
  dsimp only [ModbusMaster.writeSingleRegister, RenogyRover.nextWrite]
  rw [ha]
  refine ⟨rfl, rfl, ?_, ?_⟩
  · by_cases hs : toUInt8 (self._client.device self._client.log.length
        (Call.writeSingleRegister (toUInt16 0x010A) state.toNat)).status =
        ModbusMaster.ku8MBSuccess
    · rw [if_pos hs]
      exact ⟨fun _ => hs, fun _ => rfl⟩
    · rw [if_neg hs]
      exact ⟨fun h1 => absurd (show (0 : Int) = 1 from h1) (by decide),
        fun h2 => absurd h2 hs⟩
  · intro hf
    rw [if_neg hf]

/-- C11, at `state = 1` with a bus that accepts the write, and at `state = 0` with a bus
that answers "illegal data address" (code 2). -/
theorem setStreetLight_writes_once_witness :
    ((scriptedRover [⟨0, []⟩]).setStreetLight 1).self._client.log =
      [Call.writeSingleRegister 0x010A 1] ∧
    ((scriptedRover [⟨0, []⟩]).setStreetLight 1).ret = 1 ∧
    ((scriptedRover [⟨2, []⟩]).setStreetLight 0).self._client.log =
      [Call.writeSingleRegister 0x010A 0] ∧
    ((scriptedRover [⟨2, []⟩]).setStreetLight 0).ret = 0 :=
  ⟨(setStreetLight_writes_once (scriptedRover [⟨0, []⟩]) 1 (by decide)).1,
    (setStreetLight_writes_once (scriptedRover [⟨0, []⟩]) 1 (by decide)).2.2.1.mpr
      (by decide),
    (setStreetLight_writes_once (scriptedRover [⟨2, []⟩]) 0 (by decide)).1,
    (setStreetLight_writes_once (scriptedRover [⟨2, []⟩]) 0 (by decide)).2.2.2
      (by decide)⟩

/-! ## `getPanelState` and `getDayStatistics` -/

/-- C14: after a successful read of the words `w0, w1, w2` at `0x0107`, `getPanelState`
returns 1 with `voltage = signed16(w0) / 10`, `current = signed16(w1) / 100` and
`chargingPower = signed16(w2)`, where `signed16` is the two's-complement reading. -/
theorem getPanelState_decodes (self : RenogyRover) (state : PanelState)
    (w0 w1 w2 : Nat) (h0 : w0 < 2 ^ 16) (h1 : w1 < 2 ^ 16) (h2 : w2 < 2 ^ 16)
    (hs : (self.nextRead 0x0107 3).status = ModbusMaster.ku8MBSuccess)
    (hw : (self.nextRead 0x0107 3).words = [w0, w1, w2]) :
    (self.getPanelState state).ret = 1 ∧
    (self.getPanelState state).out.voltage = (specSigned16 w0 : ℚ) / 10 ∧
    (self.getPanelState state).out.current = (specSigned16 w1 : ℚ) / 100 ∧
    (self.getPanelState state).out.chargingPower = (specSigned16 w2 : ℚ) := by
  have hs8 : toUInt8 (self.nextRead 0x0107 3).status = ModbusMaster.ku8MBSuccess := by
    rw [hs]; rfl
  have h := readHoldingRegisters_success self 0x0107 3 (List.replicate 3 0) hs8
  have hne := (readHoldingRegisters_ret self 0x0107 3 (List.replicate 3 0)).1 hs8
  have e0 : toUInt16 w0 = w0 := Nat.mod_eq_of_lt h0
  have e1 : toUInt16 w1 = w1 := Nat.mod_eq_of_lt h1
  have e2 : toUInt16 w2 = w2 := Nat.mod_eq_of_lt h2
  have hv : (self._readHoldingRegisters 0x0107 3 (List.replicate 3 0)).out =
      [w0, w1, w2] := by
    rw [h.2, hw]
    simp [List.range, List.range.loop, toUInt8, ModbusMaster.ku8MaxBufferSize, e0, e1, e2]
  unfold RenogyRover.getPanelState
  dsimp only
  rw [if_neg hne, hv]
  simp only [List.getD_cons_zero, List.getD_cons_succ, toInt16_eq_specSigned16 _ h0,
    toInt16_eq_specSigned16 _ h1, toInt16_eq_specSigned16 _ h2]
  refine ⟨trivial, ?_, ?_, trivial⟩
  · ring
  · ring

/-- C14, at the words `[1200, 150, 300]` (voltage 120.0, current 1.50, charging power
300) and at the word `0xFFFF` in first place, which reads as -1 and gives voltage -0.1. -/
theorem getPanelState_decodes_witness :
    ((scriptedRover [⟨0, [1200, 150, 300]⟩]).getPanelState ⟨0, 0, 0⟩).ret = 1 ∧
    ((scriptedRover [⟨0, [1200, 150, 300]⟩]).getPanelState ⟨0, 0, 0⟩).out.voltage = 120 ∧
    ((scriptedRover [⟨0, [1200, 150, 300]⟩]).getPanelState ⟨0, 0, 0⟩).out.current = 3 / 2 ∧
    ((scriptedRover [⟨0, [1200, 150, 300]⟩]).getPanelState ⟨0, 0, 0⟩).out.chargingPower
      = 300 ∧
    ((scriptedRover [⟨0, [0xFFFF, 0, 0]⟩]).getPanelState ⟨0, 0, 0⟩).out.voltage = -1 / 10 := by
  have h := getPanelState_decodes (scriptedRover [⟨0, [1200, 150, 300]⟩]) ⟨0, 0, 0⟩
    1200 150 300 (by decide) (by decide) (by decide) rfl rfl
  have g := getPanelState_decodes (scriptedRover [⟨0, [0xFFFF, 0, 0]⟩]) ⟨0, 0, 0⟩
    0xFFFF 0 0 (by decide) (by decide) (by decide) rfl rfl
  have s0 : specSigned16 1200 = 1200 := by decide
  have s1 : specSigned16 150 = 150 := by decide
  have s2 : specSigned16 300 = 300 := by decide
  have s3 : specSigned16 0xFFFF = -1 := by decide
  rw [s0, s1, s2] at h
  rw [s3] at g
  refine ⟨h.1, ?_, ?_, ?_, ?_⟩
  · rw [h.2.1]; norm_num
  · rw [h.2.2.1]; norm_num
  · rw [h.2.2.2]; norm_num
  · rw [g.2.1]; norm_num

/-- C15: after a successful read of the words `w0 .. w9` at `0x010B`, `getDayStatistics`
returns 1 with the ten fields taken by position: the two battery voltages are
`signed16 / 10`, the two maximum currents `signed16 / 100`, and the six remaining fields
`signed16` unscaled. -/
theorem getDayStatistics_decodes (self : RenogyRover) (params : DayStatistics)
    (w0 w1 w2 w3 w4 w5 w6 w7 w8 w9 : Nat)
    (h0 : w0 < 2 ^ 16) (h1 : w1 < 2 ^ 16) (h2 : w2 < 2 ^ 16) (h3 : w3 < 2 ^ 16)
    (h4 : w4 < 2 ^ 16) (h5 : w5 < 2 ^ 16) (h6 : w6 < 2 ^ 16) (h7 : w7 < 2 ^ 16)
    (h8 : w8 < 2 ^ 16) (h9 : w9 < 2 ^ 16)
    (hs : (self.nextRead 0x010B 10).status = ModbusMaster.ku8MBSuccess)
    (hw : (self.nextRead 0x010B 10).words = [w0, w1, w2, w3, w4, w5, w6, w7, w8, w9]) :
    (self.getDayStatistics params).ret = 1 ∧
    (self.getDayStatistics params).out.batteryVoltageMinForDay = (specSigned16 w0 : ℚ) / 10 ∧
    (self.getDayStatistics params).out.batteryVoltageMaxForDay = (specSigned16 w1 : ℚ) / 10 ∧
    (self.getDayStatistics params).out.maxChargeCurrentForDay = (specSigned16 w2 : ℚ) / 100 ∧
    (self.getDayStatistics params).out.maxDischargeCurrentForDay =
      (specSigned16 w3 : ℚ) / 100 ∧
    (self.getDayStatistics params).out.maxChargePowerForDay = (specSigned16 w4 : ℚ) ∧
    (self.getDayStatistics params).out.maxDischargePowerForDay = (specSigned16 w5 : ℚ) ∧
    (self.getDayStatistics params).out.chargingAmpHoursForDay = (specSigned16 w6 : ℚ) ∧
    (self.getDayStatistics params).out.dischargingAmpHoursForDay = (specSigned16 w7 : ℚ) ∧
    (self.getDayStatistics params).out.powerGenerationForDay = (specSigned16 w8 : ℚ) ∧
    (self.getDayStatistics params).out.powerConsumptionForDay = (specSigned16 w9 : ℚ) := by
  have hs8 : toUInt8 (self.nextRead 0x010B 10).status = ModbusMaster.ku8MBSuccess := by
    rw [hs]; rfl
  have h := readHoldingRegisters_success self 0x010B 10 (List.replicate 10 0) hs8
  have hne := (readHoldingRegisters_ret self 0x010B 10 (List.replicate 10 0)).1 hs8
  have e0 : toUInt16 w0 = w0 := Nat.mod_eq_of_lt h0
  have e1 : toUInt16 w1 = w1 := Nat.mod_eq_of_lt h1
  have e2 : toUInt16 w2 = w2 := Nat.mod_eq_of_lt h2
  have e3 : toUInt16 w3 = w3 := Nat.mod_eq_of_lt h3
  have e4 : toUInt16 w4 = w4 := Nat.mod_eq_of_lt h4
  have e5 : toUInt16 w5 = w5 := Nat.mod_eq_of_lt h5
  have e6 : toUInt16 w6 = w6 := Nat.mod_eq_of_lt h6
  have e7 : toUInt16 w7 = w7 := Nat.mod_eq_of_lt h7
  have e8 : toUInt16 w8 = w8 := Nat.mod_eq_of_lt h8
  have e9 : toUInt16 w9 = w9 := Nat.mod_eq_of_lt h9
  have hv : (self._readHoldingRegisters 0x010B 10 (List.replicate 10 0)).out =
      [w0, w1, w2, w3, w4, w5, w6, w7, w8, w9] := by
    rw [h.2, hw]
    simp [List.range, List.range.loop, toUInt8, ModbusMaster.ku8MaxBufferSize,
      e0, e1, e2, e3, e4, e5, e6, e7, e8, e9]
  unfold RenogyRover.getDayStatistics
  dsimp only
  rw [if_neg hne, hv]
  simp only [List.getD_cons_zero, List.getD_cons_succ, toInt16_eq_specSigned16 _ h0,
    toInt16_eq_specSigned16 _ h1, toInt16_eq_specSigned16 _ h2,
    toInt16_eq_specSigned16 _ h3, toInt16_eq_specSigned16 _ h4,
    toInt16_eq_specSigned16 _ h5, toInt16_eq_specSigned16 _ h6,
    toInt16_eq_specSigned16 _ h7, toInt16_eq_specSigned16 _ h8,
    toInt16_eq_specSigned16 _ h9]
  refine ⟨trivial, ?_, ?_, ?_, ?_, trivial, trivial, trivial, trivial, trivial, trivial⟩
  · ring
  · ring
  · ring
  · ring

/-- C15, at the words `[118, 144, 2050, 310, 480, 75, 30, 4, 520, 0xFFFE]`: voltages 11.8
and 14.4, currents 20.5 and 3.1, the next five fields unscaled, and the last word read as
-2. -/
theorem getDayStatistics_decodes_witness :
    ((scriptedRover [⟨0, [118, 144, 2050, 310, 480, 75, 30, 4, 520, 0xFFFE]⟩]).getDayStatistics
      ⟨0, 0, 0, 0, 0, 0, 0, 0, 0, 0⟩).ret = 1 ∧
    ((scriptedRover [⟨0, [118, 144, 2050, 310, 480, 75, 30, 4, 520, 0xFFFE]⟩]).getDayStatistics
      ⟨0, 0, 0, 0, 0, 0, 0, 0, 0, 0⟩).out.batteryVoltageMinForDay = 59 / 5 ∧
    ((scriptedRover [⟨0, [118, 144, 2050, 310, 480, 75, 30, 4, 520, 0xFFFE]⟩]).getDayStatistics
      ⟨0, 0, 0, 0, 0, 0, 0, 0, 0, 0⟩).out.maxChargeCurrentForDay = 41 / 2 ∧
    ((scriptedRover [⟨0, [118, 144, 2050, 310, 480, 75, 30, 4, 520, 0xFFFE]⟩]).getDayStatistics
      ⟨0, 0, 0, 0, 0, 0, 0, 0, 0, 0⟩).out.maxChargePowerForDay = 480 ∧
    ((scriptedRover [⟨0, [118, 144, 2050, 310, 480, 75, 30, 4, 520, 0xFFFE]⟩]).getDayStatistics
      ⟨0, 0, 0, 0, 0, 0, 0, 0, 0, 0⟩).out.powerConsumptionForDay = -2 := by
  have h := getDayStatistics_decodes
    (scriptedRover [⟨0, [118, 144, 2050, 310, 480, 75, 30, 4, 520, 0xFFFE]⟩])
    ⟨0, 0, 0, 0, 0, 0, 0, 0, 0, 0⟩ 118 144 2050 310 480 75 30 4 520 0xFFFE
    (by decide) (by decide) (by decide) (by decide) (by decide) (by decide) (by decide)
    (by decide) (by decide) (by decide) rfl rfl
  have s0 : specSigned16 118 = 118 := by decide
  have s2 : specSigned16 2050 = 2050 := by decide
  have s4 : specSigned16 480 = 480 := by decide
  have s9 : specSigned16 0xFFFE = -2 := by decide
  rw [s0, s2, s4, s9] at h
  refine ⟨h.1, ?_, ?_, ?_, ?_⟩
  · rw [h.2.1]; norm_num
  · rw [h.2.2.2.1]; norm_num
  · rw [h.2.2.2.2.2.1]; norm_num
  · rw [h.2.2.2.2.2.2.2.2.2.2]; norm_num

/-! ## `getHistoricalStatistics`, both reads successful -/

/-- A pair of 16-bit words assembles to a value below `2 ^ 24`. -/
theorem specPair_lt (x y : Nat) (hx : x < 2 ^ 16) (hy : y < 2 ^ 16) :
    specPair x y < 2 ^ 24 := by
  have h1 : x <<< 8 < 2 ^ 24 := by
    rw [Nat.shiftLeft_eq]
    have : x < 65536 := by simpa using hx
    norm_num
    omega
  have h2 : y < 2 ^ 24 := lt_of_lt_of_le hy (two_pow_nat_mono (by norm_num))
  exact Nat.or_lt_two_pow h1 h2

/-- The loop of `getHistoricalStatistics` turns eight 16-bit words into the four values
`pair(w0, w1)`, `pair(w2, w3)`, `pair(w4, w5)`, `pair(w6, w7)`; the reduction to
`uint32_t` changes nothing. -/
theorem assembleIntegers_eq (w0 w1 w2 w3 w4 w5 w6 w7 : Nat)
    (h0 : w0 < 2 ^ 16) (h1 : w1 < 2 ^ 16) (h2 : w2 < 2 ^ 16) (h3 : w3 < 2 ^ 16)
    (h4 : w4 < 2 ^ 16) (h5 : w5 < 2 ^ 16) (h6 : w6 < 2 ^ 16) (h7 : w7 < 2 ^ 16) :
    assembleIntegers 8 [w0, w1, w2, w3, w4, w5, w6, w7] (List.replicate (8 / 2) 0) =
      [specPair w0 w1, specPair w2 w3, specPair w4 w5, specPair w6 w7] := by
  have big : (2 : Nat) ^ 24 ≤ 2 ^ 32 := two_pow_nat_mono (by norm_num)
  have sh : ∀ x, x < 2 ^ 16 → (x <<< 8) % 2 ^ 32 = x <<< 8 := by
    intro x hx
    apply Nat.mod_eq_of_lt
    have := specPair_lt x 0 hx (by norm_num)
    simp only [specPair, Nat.or_zero] at this
    omega
  have pr : ∀ x y, x < 2 ^ 16 → y < 2 ^ 16 → ((x <<< 8) ||| y) % 2 ^ 32 = specPair x y := by
    intro x y hx hy
    have := specPair_lt x y hx hy
    exact Nat.mod_eq_of_lt (by simp only [specPair] at this; omega)
  simp only [assembleIntegers, List.range, List.range.loop, List.foldl, List.replicate,
    List.set, List.getD_cons_zero, List.getD_cons_succ, Nat.reduceDiv, Nat.reduceAdd,
    sh _ h0, sh _ h2, sh _ h4, sh _ h6, pr _ _ h0 h1, pr _ _ h2 h3, pr _ _ h4 h5, pr _ _ h6 h7]

/-- The decoding where `int` is wide enough.  On a toolchain whose `int` has at least 25
bits (so also 32), when the read of 3 words at `0x0115` succeeds with `a0, a1, a2` and the read of 8 words at `0x0118`
succeeds with `w0 .. w7`, `getHistoricalStatistics` returns 1 with the three counters
equal to `signed16(a0)`, `signed16(a1)`, `signed16(a2)`, the two amp-hour fields equal to
`pair(w0, w1)` and `pair(w2, w3)`, and the two power fields equal to
`pair(w4, w5) / 10000` and `pair(w6, w7) / 10000`, where `pair(x, y) = (x << 8) | y`. -/
theorem getHistoricalStatistics_decodes (intBits : Nat) (hbits : 25 ≤ intBits)
    (self : RenogyRover) (stats : HistStatistics)
    (a0 a1 a2 w0 w1 w2 w3 w4 w5 w6 w7 : Nat)
    (ha0 : a0 < 2 ^ 16) (ha1 : a1 < 2 ^ 16) (ha2 : a2 < 2 ^ 16)
    (h0 : w0 < 2 ^ 16) (h1 : w1 < 2 ^ 16) (h2 : w2 < 2 ^ 16) (h3 : w3 < 2 ^ 16)
    (h4 : w4 < 2 ^ 16) (h5 : w5 < 2 ^ 16) (h6 : w6 < 2 ^ 16) (h7 : w7 < 2 ^ 16)
    (hs : (self.nextRead 0x0115 3).status = ModbusMaster.ku8MBSuccess)
    (hw : (self.nextRead 0x0115 3).words = [a0, a1, a2])
    (hs2 : (((self._readHoldingRegisters 0x0115 3 (List.replicate 3 0)).self).nextRead
      0x0118 8).status = ModbusMaster.ku8MBSuccess)
    (hw2 : (((self._readHoldingRegisters 0x0115 3 (List.replicate 3 0)).self).nextRead
      0x0118 8).words = [w0, w1, w2, w3, w4, w5, w6, w7]) :
    (self.getHistoricalStatistics intBits stats).ret = 1 ∧
    (self.getHistoricalStatistics intBits stats).out.operatingDays = specSigned16 a0 ∧
    (self.getHistoricalStatistics intBits stats).out.batOverDischarges = specSigned16 a1 ∧
    (self.getHistoricalStatistics intBits stats).out.batFullCharges = specSigned16 a2 ∧
    (self.getHistoricalStatistics intBits stats).out.batChargingAmpHours =
      (specPair w0 w1 : Int) ∧
    (self.getHistoricalStatistics intBits stats).out.batDischargingAmpHours =
      (specPair w2 w3 : Int) ∧
    (self.getHistoricalStatistics intBits stats).out.powerGenerated =
      (specPair w4 w5 : ℚ) / 10000 ∧
    (self.getHistoricalStatistics intBits stats).out.powerConsumed =
      (specPair w6 w7 : ℚ) / 10000 := by
  have hs8 : toUInt8 (self.nextRead 0x0115 3).status = ModbusMaster.ku8MBSuccess := by
    rw [hs]; rfl
  have h := readHoldingRegisters_success self 0x0115 3 (List.replicate 3 0) hs8
  have hne := (readHoldingRegisters_ret self 0x0115 3 (List.replicate 3 0)).1 hs8
  have hs8b : toUInt8 (((self._readHoldingRegisters 0x0115 3 (List.replicate 3 0)).self).nextRead
      0x0118 8).status = ModbusMaster.ku8MBSuccess := by
    rw [hs2]; rfl
  have hb := readHoldingRegisters_success
    ((self._readHoldingRegisters 0x0115 3 (List.replicate 3 0)).self) 0x0118 8
    (List.replicate 8 0) hs8b
  have hneb := (readHoldingRegisters_ret
    ((self._readHoldingRegisters 0x0115 3 (List.replicate 3 0)).self) 0x0118 8
    (List.replicate 8 0)).1 hs8b
  have ea0 : toUInt16 a0 = a0 := Nat.mod_eq_of_lt ha0
  have ea1 : toUInt16 a1 = a1 := Nat.mod_eq_of_lt ha1
  have ea2 : toUInt16 a2 = a2 := Nat.mod_eq_of_lt ha2
  have e0 : toUInt16 w0 = w0 := Nat.mod_eq_of_lt h0
  have e1 : toUInt16 w1 = w1 := Nat.mod_eq_of_lt h1
  have e2 : toUInt16 w2 = w2 := Nat.mod_eq_of_lt h2
  have e3 : toUInt16 w3 = w3 := Nat.mod_eq_of_lt h3
  have e4 : toUInt16 w4 = w4 := Nat.mod_eq_of_lt h4
  have e5 : toUInt16 w5 = w5 := Nat.mod_eq_of_lt h5
  have e6 : toUInt16 w6 = w6 := Nat.mod_eq_of_lt h6
  have e7 : toUInt16 w7 = w7 := Nat.mod_eq_of_lt h7
  have hv : (self._readHoldingRegisters 0x0115 3 (List.replicate 3 0)).out = [a0, a1, a2] := by
    rw [h.2, hw]
    simp [List.range, List.range.loop, toUInt8, ModbusMaster.ku8MaxBufferSize, ea0, ea1, ea2]
  have hvb : (((self._readHoldingRegisters 0x0115 3 (List.replicate 3 0)).self)._readHoldingRegisters
      0x0118 8 (List.replicate 8 0)).out = [w0, w1, w2, w3, w4, w5, w6, w7] := by
    rw [hb.2, hw2]
    simp [List.range, List.range.loop, toUInt8, ModbusMaster.ku8MaxBufferSize,
      e0, e1, e2, e3, e4, e5, e6, e7]
  have hp : (2 : Int) ^ 25 ≤ 2 ^ intBits := two_pow_int_mono hbits
  have fits : ∀ x y, x < 2 ^ 16 → y < 2 ^ 16 →
      toInt intBits (specPair x y : Int) = (specPair x y : Int) := by
    intro x y hx hy
    have hlt : specPair x y < 2 ^ 24 := specPair_lt x y hx hy
    have hlt2 : (specPair x y : Int) < 16777216 := by
      have : specPair x y < 16777216 := by simpa using hlt
      exact_mod_cast this
    exact wrapSigned_of_small _ _ (Int.ofNat_nonneg _) (by norm_num at hp; omega)
  unfold RenogyRover.getHistoricalStatistics
  dsimp only
  rw [if_neg hne, if_neg hneb, hv, hvb,
    assembleIntegers_eq w0 w1 w2 w3 w4 w5 w6 w7 h0 h1 h2 h3 h4 h5 h6 h7]
  simp only [List.getD_cons_zero, List.getD_cons_succ, toInt16_eq_specSigned16 _ ha0,
    toInt16_eq_specSigned16 _ ha1, toInt16_eq_specSigned16 _ ha2, fits _ _ h0 h1,
    fits _ _ h2 h3]
  exact ⟨trivial, trivial, trivial, trivial, trivial, trivial, trivial, trivial⟩

/-- The decoding at the words `[5, 6, 0xFFFF]` and
`[1, 0, 0, 0x100, 0x00FF, 0xFFFF, 0, 10000]` on a 32-bit `int` toolchain: counters 5, 6 and -1, amp-hours 256 and 256, power generated
6.5535 and power consumed 1. -/
theorem getHistoricalStatistics_decodes_witness :
    ((scriptedRover [⟨0, [5, 6, 0xFFFF]⟩,
        ⟨0, [1, 0, 0, 0x100, 0x00FF, 0xFFFF, 0, 10000]⟩]).getHistoricalStatistics 32
      ⟨0, 0, 0, 0, 0, 0, 0⟩).ret = 1 ∧
    ((scriptedRover [⟨0, [5, 6, 0xFFFF]⟩,
        ⟨0, [1, 0, 0, 0x100, 0x00FF, 0xFFFF, 0, 10000]⟩]).getHistoricalStatistics 32
      ⟨0, 0, 0, 0, 0, 0, 0⟩).out.operatingDays = 5 ∧
    ((scriptedRover [⟨0, [5, 6, 0xFFFF]⟩,
        ⟨0, [1, 0, 0, 0x100, 0x00FF, 0xFFFF, 0, 10000]⟩]).getHistoricalStatistics 32
      ⟨0, 0, 0, 0, 0, 0, 0⟩).out.batFullCharges = -1 ∧
    ((scriptedRover [⟨0, [5, 6, 0xFFFF]⟩,
        ⟨0, [1, 0, 0, 0x100, 0x00FF, 0xFFFF, 0, 10000]⟩]).getHistoricalStatistics 32
      ⟨0, 0, 0, 0, 0, 0, 0⟩).out.batChargingAmpHours = 256 ∧
    ((scriptedRover [⟨0, [5, 6, 0xFFFF]⟩,
        ⟨0, [1, 0, 0, 0x100, 0x00FF, 0xFFFF, 0, 10000]⟩]).getHistoricalStatistics 32
      ⟨0, 0, 0, 0, 0, 0, 0⟩).out.batDischargingAmpHours = 256 ∧
    ((scriptedRover [⟨0, [5, 6, 0xFFFF]⟩,
        ⟨0, [1, 0, 0, 0x100, 0x00FF, 0xFFFF, 0, 10000]⟩]).getHistoricalStatistics 32
      ⟨0, 0, 0, 0, 0, 0, 0⟩).out.powerGenerated = 65535 / 10000 ∧
    ((scriptedRover [⟨0, [5, 6, 0xFFFF]⟩,
        ⟨0, [1, 0, 0, 0x100, 0x00FF, 0xFFFF, 0, 10000]⟩]).getHistoricalStatistics 32
      ⟨0, 0, 0, 0, 0, 0, 0⟩).out.powerConsumed = 1 := by
  have h := getHistoricalStatistics_decodes 32 (by decide)
    (scriptedRover [⟨0, [5, 6, 0xFFFF]⟩, ⟨0, [1, 0, 0, 0x100, 0x00FF, 0xFFFF, 0, 10000]⟩])
    ⟨0, 0, 0, 0, 0, 0, 0⟩ 5 6 0xFFFF 1 0 0 0x100 0x00FF 0xFFFF 0 10000
    (by decide) (by decide) (by decide) (by decide) (by decide) (by decide) (by decide)
    (by decide) (by decide) (by decide) (by decide) rfl rfl (by decide) (by decide)
  have s0 : specSigned16 5 = 5 := by decide
  have s2 : specSigned16 0xFFFF = -1 := by decide
  have p0 : specPair 1 0 = 256 := by decide
  have p1 : specPair 0 0x100 = 256 := by decide
  have p2 : specPair 0x00FF 0xFFFF = 65535 := by decide
  have p3 : specPair 0 10000 = 10000 := by decide
  rw [s0, s2, p0, p1, p2, p3] at h
  refine ⟨h.1, h.2.1, h.2.2.2.1, ?_, ?_, ?_, ?_⟩
  · rw [h.2.2.2.2.1]; norm_num
  · rw [h.2.2.2.2.2.1]; norm_num
  · rw [h.2.2.2.2.2.2.1]; norm_num
  · rw [h.2.2.2.2.2.2.2]; norm_num

/-- Whatever the width of `int`: when both reads succeed, `getHistoricalStatistics`
returns 1, the counters and the power fields are as the specification gives them, and
each amp-hour field is the pair `(x << 8) | y` converted from `uint32_t` to `int`. -/
theorem getHistoricalStatistics_success (intBits : Nat)
    (self : RenogyRover) (stats : HistStatistics)
    (a0 a1 a2 w0 w1 w2 w3 w4 w5 w6 w7 : Nat)
    (ha0 : a0 < 2 ^ 16) (ha1 : a1 < 2 ^ 16) (ha2 : a2 < 2 ^ 16)
    (h0 : w0 < 2 ^ 16) (h1 : w1 < 2 ^ 16) (h2 : w2 < 2 ^ 16) (h3 : w3 < 2 ^ 16)
    (h4 : w4 < 2 ^ 16) (h5 : w5 < 2 ^ 16) (h6 : w6 < 2 ^ 16) (h7 : w7 < 2 ^ 16)
    (hs : (self.nextRead 0x0115 3).status = ModbusMaster.ku8MBSuccess)
    (hw : (self.nextRead 0x0115 3).words = [a0, a1, a2])
    (hs2 : (((self._readHoldingRegisters 0x0115 3 (List.replicate 3 0)).self).nextRead
      0x0118 8).status = ModbusMaster.ku8MBSuccess)
    (hw2 : (((self._readHoldingRegisters 0x0115 3 (List.replicate 3 0)).self).nextRead
      0x0118 8).words = [w0, w1, w2, w3, w4, w5, w6, w7]) :
    (self.getHistoricalStatistics intBits stats).ret = 1 ∧
    (self.getHistoricalStatistics intBits stats).out.operatingDays = specSigned16 a0 ∧
    (self.getHistoricalStatistics intBits stats).out.batOverDischarges = specSigned16 a1 ∧
    (self.getHistoricalStatistics intBits stats).out.batFullCharges = specSigned16 a2 ∧
    (self.getHistoricalStatistics intBits stats).out.batChargingAmpHours =
      toInt intBits (specPair w0 w1 : Int) ∧
    (self.getHistoricalStatistics intBits stats).out.batDischargingAmpHours =
      toInt intBits (specPair w2 w3 : Int) ∧
    (self.getHistoricalStatistics intBits stats).out.powerGenerated =
      (specPair w4 w5 : ℚ) / 10000 ∧
    (self.getHistoricalStatistics intBits stats).out.powerConsumed =
      (specPair w6 w7 : ℚ) / 10000 := by
  have hs8 : toUInt8 (self.nextRead 0x0115 3).status = ModbusMaster.ku8MBSuccess := by
    rw [hs]; rfl
  have h := readHoldingRegisters_success self 0x0115 3 (List.replicate 3 0) hs8
  have hne := (readHoldingRegisters_ret self 0x0115 3 (List.replicate 3 0)).1 hs8
  have hs8b : toUInt8 (((self._readHoldingRegisters 0x0115 3 (List.replicate 3 0)).self).nextRead
      0x0118 8).status = ModbusMaster.ku8MBSuccess := by
    rw [hs2]; rfl
  have hb := readHoldingRegisters_success
    ((self._readHoldingRegisters 0x0115 3 (List.replicate 3 0)).self) 0x0118 8
    (List.replicate 8 0) hs8b
  have hneb := (readHoldingRegisters_ret
    ((self._readHoldingRegisters 0x0115 3 (List.replicate 3 0)).self) 0x0118 8
    (List.replicate 8 0)).1 hs8b
  have ea0 : toUInt16 a0 = a0 := Nat.mod_eq_of_lt ha0
  have ea1 : toUInt16 a1 = a1 := Nat.mod_eq_of_lt ha1
  have ea2 : toUInt16 a2 = a2 := Nat.mod_eq_of_lt ha2
  have e0 : toUInt16 w0 = w0 := Nat.mod_eq_of_lt h0
  have e1 : toUInt16 w1 = w1 := Nat.mod_eq_of_lt h1
  have e2 : toUInt16 w2 = w2 := Nat.mod_eq_of_lt h2
  have e3 : toUInt16 w3 = w3 := Nat.mod_eq_of_lt h3
  have e4 : toUInt16 w4 = w4 := Nat.mod_eq_of_lt h4
  have e5 : toUInt16 w5 = w5 := Nat.mod_eq_of_lt h5
  have e6 : toUInt16 w6 = w6 := Nat.mod_eq_of_lt h6
  have e7 : toUInt16 w7 = w7 := Nat.mod_eq_of_lt h7
  have hv : (self._readHoldingRegisters 0x0115 3 (List.replicate 3 0)).out = [a0, a1, a2] := by
    rw [h.2, hw]
    simp [List.range, List.range.loop, toUInt8, ModbusMaster.ku8MaxBufferSize, ea0, ea1, ea2]
  have hvb : (((self._readHoldingRegisters 0x0115 3 (List.replicate 3 0)).self)._readHoldingRegisters
      0x0118 8 (List.replicate 8 0)).out = [w0, w1, w2, w3, w4, w5, w6, w7] := by
    rw [hb.2, hw2]
    simp [List.range, List.range.loop, toUInt8, ModbusMaster.ku8MaxBufferSize,
      e0, e1, e2, e3, e4, e5, e6, e7]
  unfold RenogyRover.getHistoricalStatistics
  dsimp only
  rw [if_neg hne, if_neg hneb, hv, hvb,
    assembleIntegers_eq w0 w1 w2 w3 w4 w5 w6 w7 h0 h1 h2 h3 h4 h5 h6 h7]
  simp only [List.getD_cons_zero, List.getD_cons_succ, toInt16_eq_specSigned16 _ ha0,
    toInt16_eq_specSigned16 _ ha1, toInt16_eq_specSigned16 _ ha2]
  exact ⟨trivial, trivial, trivial, trivial, trivial, trivial, trivial, trivial⟩

/-- C13 (code defect): on a toolchain with a 16-bit `int` the amp-hour fields, declared
`int`, cannot hold the 32-bit values the code assembles in `uint32_t`.  When the first
read succeeds with `[5, 6, 7]` and the second with
`[0x0080, 0x0000, 0xFFFF, 0xFFFF, 0, 0, 0, 0]`, `getHistoricalStatistics` returns 1 with
the counters 5, 6, 7, but `batChargingAmpHours = -32768` where
`pair(0x0080, 0x0000) = 32768`, and `batDischargingAmpHours = -1` where
`pair(0xFFFF, 0xFFFF) = 16777215`. -/
theorem getHistoricalStatistics_int16_truncates :
    ((scriptedRover [⟨0, [5, 6, 7]⟩,
        ⟨0, [0x0080, 0x0000, 0xFFFF, 0xFFFF, 0, 0, 0, 0]⟩]).getHistoricalStatistics 16
      ⟨0, 0, 0, 0, 0, 0, 0⟩).ret = 1 ∧
    ((scriptedRover [⟨0, [5, 6, 7]⟩,
        ⟨0, [0x0080, 0x0000, 0xFFFF, 0xFFFF, 0, 0, 0, 0]⟩]).getHistoricalStatistics 16
      ⟨0, 0, 0, 0, 0, 0, 0⟩).out.operatingDays = 5 ∧
    ((scriptedRover [⟨0, [5, 6, 7]⟩,
        ⟨0, [0x0080, 0x0000, 0xFFFF, 0xFFFF, 0, 0, 0, 0]⟩]).getHistoricalStatistics 16
      ⟨0, 0, 0, 0, 0, 0, 0⟩).out.batOverDischarges = 6 ∧
    ((scriptedRover [⟨0, [5, 6, 7]⟩,
        ⟨0, [0x0080, 0x0000, 0xFFFF, 0xFFFF, 0, 0, 0, 0]⟩]).getHistoricalStatistics 16
      ⟨0, 0, 0, 0, 0, 0, 0⟩).out.batFullCharges = 7 ∧
    specPair 0x0080 0x0000 = 32768 ∧
    ((scriptedRover [⟨0, [5, 6, 7]⟩,
        ⟨0, [0x0080, 0x0000, 0xFFFF, 0xFFFF, 0, 0, 0, 0]⟩]).getHistoricalStatistics 16
      ⟨0, 0, 0, 0, 0, 0, 0⟩).out.batChargingAmpHours = -32768 ∧
    ((scriptedRover [⟨0, [5, 6, 7]⟩,
        ⟨0, [0x0080, 0x0000, 0xFFFF, 0xFFFF, 0, 0, 0, 0]⟩]).getHistoricalStatistics 16
      ⟨0, 0, 0, 0, 0, 0, 0⟩).out.batChargingAmpHours ≠ (specPair 0x0080 0x0000 : Int) ∧
    specPair 0xFFFF 0xFFFF = 16777215 ∧
    ((scriptedRover [⟨0, [5, 6, 7]⟩,
        ⟨0, [0x0080, 0x0000, 0xFFFF, 0xFFFF, 0, 0, 0, 0]⟩]).getHistoricalStatistics 16
      ⟨0, 0, 0, 0, 0, 0, 0⟩).out.batDischargingAmpHours = -1 ∧
    ((scriptedRover [⟨0, [5, 6, 7]⟩,
        ⟨0, [0x0080, 0x0000, 0xFFFF, 0xFFFF, 0, 0, 0, 0]⟩]).getHistoricalStatistics 16
      ⟨0, 0, 0, 0, 0, 0, 0⟩).out.batDischargingAmpHours ≠ (specPair 0xFFFF 0xFFFF : Int) := by
  decide

/-- C17: the word-pair assembly of `getHistoricalStatistics` loses information.  Every
value the loop produces from 16-bit words is the pair `(x << 8) | y` and lies below
`2 ^ 24`; and the assembly is not injective: the distinct word pairs `(0x0001, 0x0000)`
and `(0x0000, 0x0100)` both give 256, so two different register contents leave
`getHistoricalStatistics` with the same record. -/
theorem assembleIntegers_loses_information (w0 w1 w2 w3 w4 w5 w6 w7 : Nat)
    (h0 : w0 < 2 ^ 16) (h1 : w1 < 2 ^ 16) (h2 : w2 < 2 ^ 16) (h3 : w3 < 2 ^ 16)
    (h4 : w4 < 2 ^ 16) (h5 : w5 < 2 ^ 16) (h6 : w6 < 2 ^ 16) (h7 : w7 < 2 ^ 16) :
    assembleIntegers 8 [w0, w1, w2, w3, w4, w5, w6, w7] (List.replicate (8 / 2) 0) =
      [specPair w0 w1, specPair w2 w3, specPair w4 w5, specPair w6 w7] ∧
    (∀ v ∈ assembleIntegers 8 [w0, w1, w2, w3, w4, w5, w6, w7] (List.replicate (8 / 2) 0),
      v < 2 ^ 24) ∧
    ((0x0001, 0x0000) : Nat × Nat) ≠ (0x0000, 0x0100) ∧
    specPair 0x0001 0x0000 = 256 ∧ specPair 0x0000 0x0100 = 256 ∧
    assembleIntegers 8 [0x0001, 0x0000, 0, 0, 0, 0, 0, 0] (List.replicate (8 / 2) 0) =
      assembleIntegers 8 [0x0000, 0x0100, 0, 0, 0, 0, 0, 0] (List.replicate (8 / 2) 0) ∧
    ((scriptedRover [⟨0, [0, 0, 0]⟩,
        ⟨0, [0x0001, 0x0000, 0, 0, 0, 0, 0, 0]⟩]).getHistoricalStatistics 32
      ⟨0, 0, 0, 0, 0, 0, 0⟩).out =
    ((scriptedRover [⟨0, [0, 0, 0]⟩,
        ⟨0, [0x0000, 0x0100, 0, 0, 0, 0, 0, 0]⟩]).getHistoricalStatistics 32
      ⟨0, 0, 0, 0, 0, 0, 0⟩).out := by
  have heq := assembleIntegers_eq w0 w1 w2 w3 w4 w5 w6 w7 h0 h1 h2 h3 h4 h5 h6 h7
  refine ⟨heq, ?_, by decide, by decide, by decide, by decide, ?_⟩
  · intro v hv
    rw [heq] at hv
    simp only [List.mem_cons, List.mem_singleton, List.not_mem_nil, or_false] at hv
    rcases hv with hv | hv | hv | hv <;> subst hv
    · exact specPair_lt _ _ h0 h1
    · exact specPair_lt _ _ h2 h3
    · exact specPair_lt _ _ h4 h5
    · exact specPair_lt _ _ h6 h7
  · rfl

/-- C17, at the words `0xFFFF` throughout: each assembled value is `0xFFFFFF`, the
largest below `2 ^ 24`. -/
theorem assembleIntegers_loses_information_witness :
    assembleIntegers 8 [0xFFFF, 0xFFFF, 0xFFFF, 0xFFFF, 0xFFFF, 0xFFFF, 0xFFFF, 0xFFFF]
        (List.replicate (8 / 2) 0) =
      [specPair 0xFFFF 0xFFFF, specPair 0xFFFF 0xFFFF, specPair 0xFFFF 0xFFFF,
        specPair 0xFFFF 0xFFFF] ∧
    specPair 0xFFFF 0xFFFF = 0xFFFFFF :=
  ⟨(assembleIntegers_loses_information 0xFFFF 0xFFFF 0xFFFF 0xFFFF 0xFFFF 0xFFFF 0xFFFF
      0xFFFF (by decide) (by decide) (by decide) (by decide) (by decide) (by decide)
      (by decide) (by decide)).1, by decide⟩

/-- C18: the fault mask does not depend on the second register.  For every first word
`w0` and any two second words `w1`, `w1'` of a successful read of 2 words at `0x0121`,
`getErrors` returns the same code and stores the same `errors`, whatever the two objects
and the prior values of `errors` are otherwise. -/
theorem getErrors_ignores_second_word (intBits : Nat) (self self' : RenogyRover)
    (errors errors' : Int) (w0 w1 w1' : Nat) (h0 : w0 < 2 ^ 16)
    (hs : (self.nextRead 0x0121 2).status = ModbusMaster.ku8MBSuccess)
    (hw : (self.nextRead 0x0121 2).words = [w0, w1])
    (hs' : (self'.nextRead 0x0121 2).status = ModbusMaster.ku8MBSuccess)
    (hw' : (self'.nextRead 0x0121 2).words = [w0, w1']) :
    (self.getErrors intBits errors).ret = (self'.getErrors intBits errors').ret ∧
    (self.getErrors intBits errors).out = (self'.getErrors intBits errors').out := by
  obtain ⟨hr, ho⟩ := getErrors_success intBits self errors w0 w1 h0 hs hw
  obtain ⟨hr', ho'⟩ := getErrors_success intBits self' errors' w0 w1' h0 hs' hw'
  exact ⟨hr.trans hr'.symm, ho.trans ho'.symm⟩

/-- C18, at the first word `0x0005` with second words `0x0000` and `0xFFFF`. -/
theorem getErrors_ignores_second_word_witness :
    ((scriptedRover [⟨0, [0x0005, 0x0000]⟩]).getErrors 32 0).ret =
      ((scriptedRover [⟨0, [0x0005, 0xFFFF]⟩]).getErrors 32 0).ret ∧
    ((scriptedRover [⟨0, [0x0005, 0x0000]⟩]).getErrors 32 0).out =
      ((scriptedRover [⟨0, [0x0005, 0xFFFF]⟩]).getErrors 32 0).out :=
  getErrors_ignores_second_word 32 (scriptedRover [⟨0, [0x0005, 0x0000]⟩])
    (scriptedRover [⟨0, [0x0005, 0xFFFF]⟩]) 0 0 0x0005 0x0000 0xFFFF (by decide) rfl rfl
    rfl rfl

/-! ## The requests each operation issues -/

/-- The function `_readHoldingRegisters` puts exactly one read request on the log, whatever
the answer of the bus. -/
theorem readHoldingRegisters_log (self : RenogyRover) (base length : Nat)
    (values : List Nat) :
    (self._readHoldingRegisters base length values).self._client.log =
      self._client.log ++ [Call.readHoldingRegisters (toUInt16 base) (toUInt16 length)] := by
  unfold RenogyRover._readHoldingRegisters
  dsimp only
  split <;> rfl

/-- C16: whatever the bus answers, `getProductModel`, `getPanelState`, `getBatteryState`,
`getDayStatistics`, `getChargingState` and `getErrors` each add exactly one request to
the log, the read at `(0x000C, 8)`, `(0x0107, 3)`, `(0x0100, 4)`, `(0x010B, 10)`,
`(0x0120, 1)`, `(0x0121, 2)` respectively, and leave in `_lastError` the result code of
that read.  `getHistoricalStatistics` adds the read `(0x0115, 3)` alone when that read
fails, and the reads `(0x0115, 3)`, `(0x0118, 8)` in this order when it succeeds; its
`_lastError` is the result code of the last read issued, and after the first read it was
the result code of the first. -/
theorem operations_issue_fixed_reads (intBits : Nat) (self : RenogyRover)
    (model : CharPtr) (panel : PanelState) (battery : BatteryState) (day : DayStatistics)
    (charging : ChargingState) (errors : Int) (stats : HistStatistics) :
    ((self.getProductModel model).self._client.log =
        self._client.log ++ [Call.readHoldingRegisters 0x000C 8] ∧
      (self.getProductModel model).self._lastError =
        toUInt8 (self.nextRead 0x000C 8).status) ∧
    ((self.getPanelState panel).self._client.log =
        self._client.log ++ [Call.readHoldingRegisters 0x0107 3] ∧
      (self.getPanelState panel).self._lastError =
        toUInt8 (self.nextRead 0x0107 3).status) ∧
    ((self.getBatteryState battery).self._client.log =
        self._client.log ++ [Call.readHoldingRegisters 0x0100 4] ∧
      (self.getBatteryState battery).self._lastError =
        toUInt8 (self.nextRead 0x0100 4).status) ∧
    ((self.getDayStatistics day).self._client.log =
        self._client.log ++ [Call.readHoldingRegisters 0x010B 10] ∧
      (self.getDayStatistics day).self._lastError =
        toUInt8 (self.nextRead 0x010B 10).status) ∧
    ((self.getChargingState intBits charging).self._client.log =
        self._client.log ++ [Call.readHoldingRegisters 0x0120 1] ∧
      (self.getChargingState intBits charging).self._lastError =
        toUInt8 (self.nextRead 0x0120 1).status) ∧
    ((self.getErrors intBits errors).self._client.log =
        self._client.log ++ [Call.readHoldingRegisters 0x0121 2] ∧
      (self.getErrors intBits errors).self._lastError =
        toUInt8 (self.nextRead 0x0121 2).status) ∧
    (self._readHoldingRegisters 0x0115 3 (List.replicate 3 0)).self._lastError =
      toUInt8 (self.nextRead 0x0115 3).status ∧
    (toUInt8 (self.nextRead 0x0115 3).status ≠ ModbusMaster.ku8MBSuccess →
      (self.getHistoricalStatistics intBits stats).self._client.log =
        self._client.log ++ [Call.readHoldingRegisters 0x0115 3] ∧
      (self.getHistoricalStatistics intBits stats).self._lastError =
        toUInt8 (self.nextRead 0x0115 3).status) ∧
    (toUInt8 (self.nextRead 0x0115 3).status = ModbusMaster.ku8MBSuccess →
      (self.getHistoricalStatistics intBits stats).self._client.log =
        self._client.log ++
          [Call.readHoldingRegisters 0x0115 3, Call.readHoldingRegisters 0x0118 8] ∧
      (self.getHistoricalStatistics intBits stats).self._lastError =
        toUInt8 (((self._readHoldingRegisters 0x0115 3 (List.replicate 3 0)).self).nextRead
          0x0118 8).status) := by
  refine ⟨?_, ?_, ?_, ?_, ?_, ?_, ?_, ?_, ?_⟩
  · have hl := readHoldingRegisters_log self 0x000C 8 (List.replicate 8 0)
    have hr := (readHoldingRegisters_reports self 0x000C 8 (List.replicate 8 0)).2
    unfold RenogyRover.getProductModel
    dsimp only
    split <;> exact ⟨hl, hr⟩
  · have hl := readHoldingRegisters_log self 0x0107 3 (List.replicate 3 0)
    have hr := (readHoldingRegisters_reports self 0x0107 3 (List.replicate 3 0)).2
    unfold RenogyRover.getPanelState
    dsimp only
    split <;> exact ⟨hl, hr⟩
  · have hl := readHoldingRegisters_log self 0x0100 4 (List.replicate 4 0)
    have hr := (readHoldingRegisters_reports self 0x0100 4 (List.replicate 4 0)).2
    unfold RenogyRover.getBatteryState
    dsimp only
    split <;> exact ⟨hl, hr⟩
  · have hl := readHoldingRegisters_log self 0x010B 10 (List.replicate 10 0)
    have hr := (readHoldingRegisters_reports self 0x010B 10 (List.replicate 10 0)).2
    unfold RenogyRover.getDayStatistics
    dsimp only
    split <;> exact ⟨hl, hr⟩
  · have hl := readHoldingRegisters_log self 0x0120 1 (List.replicate 1 0)
    have hr := (readHoldingRegisters_reports self 0x0120 1 (List.replicate 1 0)).2
    unfold RenogyRover.getChargingState
    dsimp only
    split <;> exact ⟨hl, hr⟩
  · have hl := readHoldingRegisters_log self 0x0121 2 (List.replicate 2 0)
    have hr := (readHoldingRegisters_reports self 0x0121 2 (List.replicate 2 0)).2
    unfold RenogyRover.getErrors
    dsimp only
    split <;> exact ⟨hl, hr⟩
  · exact (readHoldingRegisters_reports self 0x0115 3 (List.replicate 3 0)).2
  · intro hf
    have hl := readHoldingRegisters_log self 0x0115 3 (List.replicate 3 0)
    have hr := (readHoldingRegisters_reports self 0x0115 3 (List.replicate 3 0)).2
    have h0 := (readHoldingRegisters_ret self 0x0115 3 (List.replicate 3 0)).2 hf
    unfold RenogyRover.getHistoricalStatistics
    dsimp only
    rw [if_pos h0]
    exact ⟨hl, hr⟩
  · intro hs
    have hl := readHoldingRegisters_log self 0x0115 3 (List.replicate 3 0)
    have hne := (readHoldingRegisters_ret self 0x0115 3 (List.replicate 3 0)).1 hs
    have hl2 := readHoldingRegisters_log
      ((self._readHoldingRegisters 0x0115 3 (List.replicate 3 0)).self) 0x0118 8
      (List.replicate 8 0)
    have hr2 := (readHoldingRegisters_reports
      ((self._readHoldingRegisters 0x0115 3 (List.replicate 3 0)).self) 0x0118 8
      (List.replicate 8 0)).2
    rw [hl, List.append_assoc] at hl2
    unfold RenogyRover.getHistoricalStatistics
    dsimp only
    rw [if_neg hne]
    split <;> exact ⟨hl2, hr2⟩

/-- C16, at a bus that answers every request with a time-out: `getPanelState` issues its
one read and stops, `getHistoricalStatistics` issues only its first read, and each leaves
the time-out code `0xE2` in `_lastError`. -/
theorem operations_issue_fixed_reads_witness :
    ((scriptedRover []).getPanelState ⟨0, 0, 0⟩).self._client.log =
      [Call.readHoldingRegisters 0x0107 3] ∧
    ((scriptedRover []).getPanelState ⟨0, 0, 0⟩).self._lastError = 0xE2 ∧
    ((scriptedRover []).getHistoricalStatistics 32 ⟨0, 0, 0, 0, 0, 0, 0⟩).self._client.log =
      [Call.readHoldingRegisters 0x0115 3] ∧
    ((scriptedRover []).getHistoricalStatistics 32 ⟨0, 0, 0, 0, 0, 0, 0⟩).self._lastError
      = 0xE2 :=
  ⟨(operations_issue_fixed_reads 32 (scriptedRover []) ⟨[], 0⟩ ⟨0, 0, 0⟩ ⟨0, 0, 0, 0, 0⟩
      ⟨0, 0, 0, 0, 0, 0, 0, 0, 0, 0⟩ ⟨0, 0, 0⟩ 0 ⟨0, 0, 0, 0, 0, 0, 0⟩).2.1.1,
    (operations_issue_fixed_reads 32 (scriptedRover []) ⟨[], 0⟩ ⟨0, 0, 0⟩ ⟨0, 0, 0, 0, 0⟩
      ⟨0, 0, 0, 0, 0, 0, 0, 0, 0, 0⟩ ⟨0, 0, 0⟩ 0 ⟨0, 0, 0, 0, 0, 0, 0⟩).2.1.2,
    ((operations_issue_fixed_reads 32 (scriptedRover []) ⟨[], 0⟩ ⟨0, 0, 0⟩ ⟨0, 0, 0, 0, 0⟩
      ⟨0, 0, 0, 0, 0, 0, 0, 0, 0, 0⟩ ⟨0, 0, 0⟩ 0
      ⟨0, 0, 0, 0, 0, 0, 0⟩).2.2.2.2.2.2.2.1 (by decide)).1,
    ((operations_issue_fixed_reads 32 (scriptedRover []) ⟨[], 0⟩ ⟨0, 0, 0⟩ ⟨0, 0, 0, 0, 0⟩
      ⟨0, 0, 0, 0, 0, 0, 0, 0, 0, 0⟩ ⟨0, 0, 0⟩ 0
      ⟨0, 0, 0, 0, 0, 0, 0⟩).2.2.2.2.2.2.2.1 (by decide)).2⟩

/-! ## `getLastModbusError` after a rejected `setStreetLight` -/

/-- C19: when `setStreetLight` rejects its argument (`state < 0` or `state > 1`) it
returns 0 and leaves `_lastError` as it was, so `getLastModbusError` gives afterwards the
same message as before the call: the message of the previous transport call, "Success"
when that call succeeded. -/
theorem setStreetLight_rejection_keeps_last_error (self : RenogyRover) (state : Int)
    (h : state < 0 ∨ state > 1) :
    (self.setStreetLight state).ret = 0 ∧
    (self.setStreetLight state).self._lastError = self._lastError ∧
    (self.setStreetLight state).self.getLastModbusError = self.getLastModbusError ∧
    (self._lastError = ModbusMaster.ku8MBSuccess →
      (self.setStreetLight state).self.getLastModbusError = "Success") := by
  have hc : state > 1 ∨ state < 0 := by omega
  unfold RenogyRover.setStreetLight
  rw [if_pos hc]
  refine ⟨rfl, rfl, rfl, ?_⟩
  intro hs
  show self.getLastModbusError = "Success"
  unfold RenogyRover.getLastModbusError
  rw [hs]
  rfl

/-- C19, after a successful write (`setStreetLight 1`) and after a read that timed out:
the rejected call `setStreetLight 2` leaves the messages "Success" and
"Response timed out". -/
theorem setStreetLight_rejection_keeps_last_error_witness :
    (((scriptedRover [⟨0, []⟩]).setStreetLight 1).self.setStreetLight
      2).self.getLastModbusError = "Success" ∧
    (((scriptedRover [⟨0xE2, []⟩]).getPanelState ⟨0, 0, 0⟩).self.setStreetLight
      2).self.getLastModbusError = "Response timed out" :=
  ⟨(setStreetLight_rejection_keeps_last_error
      ((scriptedRover [⟨0, []⟩]).setStreetLight 1).self 2 (by decide)).2.2.2 (by decide),
    (setStreetLight_rejection_keeps_last_error
      ((scriptedRover [⟨0xE2, []⟩]).getPanelState ⟨0, 0, 0⟩).self 2
      (by decide)).2.2.1.trans (by decide)⟩

/-! ## `getProductModel` -/

/-- The string at the head of written cells that end in a zero byte: the bytes before the
first zero byte. -/
theorem cStringOf_terminated (l : List Nat) :
    cStringOf (l.map some ++ [some 0]) = some (l.takeWhile (fun c => c ≠ 0)) := by
  induction l with
  | nil => rfl
  | cons c rest ih =>
    by_cases hc : c = 0
    · subst hc
      simp [cStringOf]
    · simp [cStringOf, hc, ih]

/-- A string without a zero byte is read back whole. -/
theorem takeWhile_nonzero (l : List Nat) (h : ∀ c ∈ l, c ≠ 0) :
    l.takeWhile (fun c => c ≠ 0) = l := by
  rw [List.takeWhile_eq_self_iff]
  intro c hc
  simpa using h c hc

/-- The copy loop of `getProductModel` on eight words and a fresh array of 17 cells: the
first 16 cells receive the high and low byte of each word in turn, cell 16 stays
unwritten. -/
theorem fillProductModel_eq (v0 v1 v2 v3 v4 v5 v6 v7 : Nat) :
    fillProductModel 8 [v0, v1, v2, v3, v4, v5, v6, v7] (List.replicate 17 none) =
      List.map some
        [toUInt8 (v0 >>> 8), toUInt8 v0, toUInt8 (v1 >>> 8), toUInt8 v1,
          toUInt8 (v2 >>> 8), toUInt8 v2, toUInt8 (v3 >>> 8), toUInt8 v3,
          toUInt8 (v4 >>> 8), toUInt8 v4, toUInt8 (v5 >>> 8), toUInt8 v5,
          toUInt8 (v6 >>> 8), toUInt8 v6, toUInt8 (v7 >>> 8), toUInt8 v7] ++ [none] := by
  simp only [fillProductModel, List.range, List.range.loop, List.foldl, List.replicate,
    List.set, List.getD_cons_zero, List.getD_cons_succ, Nat.reduceMul, Nat.reduceAdd,
    List.map, List.cons_append, List.nil_append]

/-- The cells after the copy loop and the terminator `productModel[16] = 0`, for 16-bit
words: high byte `w / 256` and low byte `w % 256` of each word, then the zero byte. -/
theorem productModel_cells (w0 w1 w2 w3 w4 w5 w6 w7 : Nat)
    (h0 : w0 < 2 ^ 16) (h1 : w1 < 2 ^ 16) (h2 : w2 < 2 ^ 16) (h3 : w3 < 2 ^ 16)
    (h4 : w4 < 2 ^ 16) (h5 : w5 < 2 ^ 16) (h6 : w6 < 2 ^ 16) (h7 : w7 < 2 ^ 16) :
    (fillProductModel 8 [w0, w1, w2, w3, w4, w5, w6, w7]
        (List.replicate (8 * 2 + 1) none)).set 16 (some 0) =
      List.map some
        ([w0 / 256, w0 % 256, w1 / 256, w1 % 256, w2 / 256, w2 % 256, w3 / 256, w3 % 256,
          w4 / 256, w4 % 256, w5 / 256, w5 % 256, w6 / 256, w6 % 256, w7 / 256, w7 % 256]
          : List Nat) ++ [some 0] := by
  have hi : ∀ w, w < 2 ^ 16 → toUInt8 (w >>> 8) = w / 256 := by
    intro w hw16
    have : w < 65536 := by simpa using hw16
    rw [Nat.shiftRight_eq_div_pow]
    unfold toUInt8
    norm_num
    omega
  have lo : ∀ w, toUInt8 w = w % 256 := by
    intro w
    unfold toUInt8
    norm_num
  have e17 : 8 * 2 + 1 = 17 := by norm_num
  rw [e17, fillProductModel_eq, hi _ h0, hi _ h1, hi _ h2, hi _ h3, hi _ h4, hi _ h5,
    hi _ h6, hi _ h7]
  simp only [lo]
  rfl

/-- After a successful read of the words `w0 .. w7` at `0x000C`, `getProductModel` returns
1 and hands back a pointer to cell 2 of an array of 17 cells that holds the high and low
byte of each word in turn, followed by a zero byte. -/
theorem getProductModel_success (self : RenogyRover) (model : CharPtr)
    (w0 w1 w2 w3 w4 w5 w6 w7 : Nat)
    (h0 : w0 < 2 ^ 16) (h1 : w1 < 2 ^ 16) (h2 : w2 < 2 ^ 16) (h3 : w3 < 2 ^ 16)
    (h4 : w4 < 2 ^ 16) (h5 : w5 < 2 ^ 16) (h6 : w6 < 2 ^ 16) (h7 : w7 < 2 ^ 16)
    (hs : (self.nextRead 0x000C 8).status = ModbusMaster.ku8MBSuccess)
    (hw : (self.nextRead 0x000C 8).words = [w0, w1, w2, w3, w4, w5, w6, w7]) :
    (self.getProductModel model).ret = 1 ∧
    (self.getProductModel model).out =
      CharPtr.mk
        (List.map some
          ([w0 / 256, w0 % 256, w1 / 256, w1 % 256, w2 / 256, w2 % 256, w3 / 256, w3 % 256,
            w4 / 256, w4 % 256, w5 / 256, w5 % 256, w6 / 256, w6 % 256, w7 / 256, w7 % 256]
            : List Nat) ++ [some 0])
        2 := by
  have hs8 : toUInt8 (self.nextRead 0x000C 8).status = ModbusMaster.ku8MBSuccess := by
    rw [hs]; rfl
  have h := readHoldingRegisters_success self 0x000C 8 (List.replicate 8 0) hs8
  have hne := (readHoldingRegisters_ret self 0x000C 8 (List.replicate 8 0)).1 hs8
  have e0 : toUInt16 w0 = w0 := Nat.mod_eq_of_lt h0
  have e1 : toUInt16 w1 = w1 := Nat.mod_eq_of_lt h1
  have e2 : toUInt16 w2 = w2 := Nat.mod_eq_of_lt h2
  have e3 : toUInt16 w3 = w3 := Nat.mod_eq_of_lt h3
  have e4 : toUInt16 w4 = w4 := Nat.mod_eq_of_lt h4
  have e5 : toUInt16 w5 = w5 := Nat.mod_eq_of_lt h5
  have e6 : toUInt16 w6 = w6 := Nat.mod_eq_of_lt h6
  have e7 : toUInt16 w7 = w7 := Nat.mod_eq_of_lt h7
  have hv : (self._readHoldingRegisters 0x000C 8 (List.replicate 8 0)).out =
      [w0, w1, w2, w3, w4, w5, w6, w7] := by
    rw [h.2, hw]
    simp [List.range, List.range.loop, toUInt8, ModbusMaster.ku8MaxBufferSize,
      e0, e1, e2, e3, e4, e5, e6, e7]
  unfold RenogyRover.getProductModel
  dsimp only
  rw [if_neg hne, hv, productModel_cells w0 w1 w2 w3 w4 w5 w6 w7 h0 h1 h2 h3 h4 h5 h6 h7]
  exact ⟨rfl, rfl⟩

/-- The specification's product model of eight words, written out: the high and low bytes
of `w1 .. w7`, 14 characters. -/
theorem specProductModel_eq (w0 w1 w2 w3 w4 w5 w6 w7 : Nat) :
    specProductModel [w0, w1, w2, w3, w4, w5, w6, w7] =
      [w1 / 256, w1 % 256, w2 / 256, w2 % 256, w3 / 256, w3 % 256, w4 / 256, w4 % 256,
        w5 / 256, w5 % 256, w6 / 256, w6 % 256, w7 / 256, w7 % 256] := by
  rfl

/-- C12 (as the specification states it, refuted): when the words read are
`[0x2020, 0x0041, 0x4242, 0x4242, 0x4242, 0x4242, 0x4242, 0x4242]`, the first character
after the two dropped ones is the zero byte, so the string that `getProductModel` hands
back is empty: its length is 0, not 14, and it is not the 14 characters of the words. -/
theorem getProductModel_zero_byte_shortens :
    ((scriptedRover [⟨0, [0x2020, 0x0041, 0x4242, 0x4242, 0x4242, 0x4242, 0x4242,
      0x4242]⟩]).getProductModel ⟨[], 0⟩).ret = 1 ∧
    ((scriptedRover [⟨0, [0x2020, 0x0041, 0x4242, 0x4242, 0x4242, 0x4242, 0x4242,
      0x4242]⟩]).getProductModel ⟨[], 0⟩).out.cString = some [] ∧
    ¬ (∃ str, ((scriptedRover [⟨0, [0x2020, 0x0041, 0x4242, 0x4242, 0x4242, 0x4242, 0x4242,
        0x4242]⟩]).getProductModel ⟨[], 0⟩).out.cString = some str ∧
      str.length = 14 ∧
      str = specProductModel
        [0x2020, 0x0041, 0x4242, 0x4242, 0x4242, 0x4242, 0x4242, 0x4242]) := by
  have hc : ((scriptedRover [⟨0, [0x2020, 0x0041, 0x4242, 0x4242, 0x4242, 0x4242, 0x4242,
      0x4242]⟩]).getProductModel ⟨[], 0⟩).out.cString = some [] := by decide
  refine ⟨by decide, hc, ?_⟩
  rintro ⟨str, h1, h2, _⟩
  rw [hc] at h1
  cases h1
  exact absurd h2 (by decide)

/-- C12 (amended): after a successful read of the words `w0 .. w7` at `0x000C`,
`getProductModel` returns 1 and the returned pointer addresses the 14 characters
high byte(`w1`), low byte(`w1`), ..., high byte(`w7`), low byte(`w7`), that is the 16
characters of the words with the first two dropped, followed by a zero byte.  The
resulting string is these characters up to the first zero byte among them; when none of
the 14 is zero it has length exactly 14 and consists of exactly these characters.
Decoding the same eight words a second time, on any object, gives the same result. -/
theorem getProductModel_decodes (self self' : RenogyRover) (model model' : CharPtr)
    (w0 w1 w2 w3 w4 w5 w6 w7 : Nat)
    (h0 : w0 < 2 ^ 16) (h1 : w1 < 2 ^ 16) (h2 : w2 < 2 ^ 16) (h3 : w3 < 2 ^ 16)
    (h4 : w4 < 2 ^ 16) (h5 : w5 < 2 ^ 16) (h6 : w6 < 2 ^ 16) (h7 : w7 < 2 ^ 16)
    (hs : (self.nextRead 0x000C 8).status = ModbusMaster.ku8MBSuccess)
    (hw : (self.nextRead 0x000C 8).words = [w0, w1, w2, w3, w4, w5, w6, w7])
    (hs' : (self'.nextRead 0x000C 8).status = ModbusMaster.ku8MBSuccess)
    (hw' : (self'.nextRead 0x000C 8).words = [w0, w1, w2, w3, w4, w5, w6, w7]) :
    (self.getProductModel model).ret = 1 ∧
    (self.getProductModel model).out.cells.drop (self.getProductModel model).out.index =
      List.map some (specProductModel [w0, w1, w2, w3, w4, w5, w6, w7]) ++ [some 0] ∧
    specProductModel [w0, w1, w2, w3, w4, w5, w6, w7] =
      [w1 / 256, w1 % 256, w2 / 256, w2 % 256, w3 / 256, w3 % 256, w4 / 256, w4 % 256,
        w5 / 256, w5 % 256, w6 / 256, w6 % 256, w7 / 256, w7 % 256] ∧
    (self.getProductModel model).out.cString =
      some ((specProductModel [w0, w1, w2, w3, w4, w5, w6, w7]).takeWhile
        (fun c => c ≠ 0)) ∧
    ((∀ c ∈ specProductModel [w0, w1, w2, w3, w4, w5, w6, w7], c ≠ 0) →
      (self.getProductModel model).out.cString =
        some (specProductModel [w0, w1, w2, w3, w4, w5, w6, w7]) ∧
      (specProductModel [w0, w1, w2, w3, w4, w5, w6, w7]).length = 14) ∧
    (self'.getProductModel model').ret = (self.getProductModel model).ret ∧
    (self'.getProductModel model').out = (self.getProductModel model).out := by
  obtain ⟨hr, ho⟩ :=
    getProductModel_success self model w0 w1 w2 w3 w4 w5 w6 w7 h0 h1 h2 h3 h4 h5 h6 h7 hs hw
  obtain ⟨hr', ho'⟩ :=
    getProductModel_success self' model' w0 w1 w2 w3 w4 w5 w6 w7 h0 h1 h2 h3 h4 h5 h6 h7
      hs' hw'
  have hd : (self.getProductModel model).out.cells.drop
      (self.getProductModel model).out.index =
      List.map some (specProductModel [w0, w1, w2, w3, w4, w5, w6, w7]) ++ [some 0] := by
    rw [ho]
    rfl
  have hc : (self.getProductModel model).out.cString =
      some ((specProductModel [w0, w1, w2, w3, w4, w5, w6, w7]).takeWhile
        (fun c => c ≠ 0)) := by
    unfold CharPtr.cString
    rw [hd]
    exact cStringOf_terminated _
  refine ⟨hr, hd, specProductModel_eq w0 w1 w2 w3 w4 w5 w6 w7, hc, ?_, ?_, ?_⟩
  · intro hnz
    refine ⟨?_, rfl⟩
    rw [hc, takeWhile_nonzero _ hnz]
  · rw [hr, hr']
  · rw [ho, ho']

/-- C12 (amended), at the words of the model name `RNG-CTRL-RVR40` preceded by two
spaces: return value 1, and the string is the 14 characters `R N G - C T R L - R V R 4 0`
by their codes. -/
theorem getProductModel_decodes_witness :
    ((scriptedRover [⟨0, [0x2020, 0x524E, 0x472D, 0x4354, 0x524C, 0x2D52, 0x5652,
      0x3430]⟩]).getProductModel ⟨[], 0⟩).ret = 1 ∧
    ((scriptedRover [⟨0, [0x2020, 0x524E, 0x472D, 0x4354, 0x524C, 0x2D52, 0x5652,
      0x3430]⟩]).getProductModel ⟨[], 0⟩).out.cString =
      some [0x52, 0x4E, 0x47, 0x2D, 0x43, 0x54, 0x52, 0x4C, 0x2D, 0x52, 0x56, 0x52, 0x34,
        0x30] :=
  ⟨(getProductModel_decodes
      (scriptedRover [⟨0, [0x2020, 0x524E, 0x472D, 0x4354, 0x524C, 0x2D52, 0x5652, 0x3430]⟩])
      (scriptedRover [⟨0, [0x2020, 0x524E, 0x472D, 0x4354, 0x524C, 0x2D52, 0x5652, 0x3430]⟩])
      ⟨[], 0⟩ ⟨[], 0⟩ 0x2020 0x524E 0x472D 0x4354 0x524C 0x2D52 0x5652 0x3430
      (by decide) (by decide) (by decide) (by decide) (by decide) (by decide) (by decide)
      (by decide) rfl rfl rfl rfl).1,
    ((getProductModel_decodes
      (scriptedRover [⟨0, [0x2020, 0x524E, 0x472D, 0x4354, 0x524C, 0x2D52, 0x5652, 0x3430]⟩])
      (scriptedRover [⟨0, [0x2020, 0x524E, 0x472D, 0x4354, 0x524C, 0x2D52, 0x5652, 0x3430]⟩])
      ⟨[], 0⟩ ⟨[], 0⟩ 0x2020 0x524E 0x472D 0x4354 0x524C 0x2D52 0x5652 0x3430
      (by decide) (by decide) (by decide) (by decide) (by decide) (by decide) (by decide)
      (by decide) rfl rfl rfl rfl).2.2.2.2.1 (by decide)).1⟩

end Renogy
